import Mathlib

/-!
Shallow embedding of the animation/attribute-addressing core of the makepad
render crate (src/render/src/area.rs and src/render/src/animator.rs).

Machine floats (f32/f64) are modelled by ℚ; the f64 NaN used as the
"unset start time" sentinel is modelled by `Option ℚ` (`none` = NaN).
Rust `Vec` indexing panics on out-of-bounds, so every operation that
indexes a buffer is embedded in the `Option` monad: `none` models a panic,
`some` a normal return.  Structure mutation through `&mut` is modelled by
explicit state passing.
-/

namespace Makepad

/-- Instance-buffer scalars (f32 in the source). -/
abbrev Val := ℚ

/-- Property identity (LiveItemId in the source, an opaque hash id). -/
abbrev LiveItemId := Nat

/-- 2-component vector, from the render math module. -/
structure Vec2 where
  x : Val
  y : Val
deriving DecidableEq, Repr

/-- 3-component vector. -/
structure Vec3 where
  x : Val
  y : Val
  z : Val
deriving DecidableEq, Repr

/-- 4-component vector. -/
structure Vec4 where
  x : Val
  y : Val
  z : Val
  w : Val
deriving DecidableEq, Repr

/-- RGBA color. -/
structure Color where
  r : Val
  g : Val
  b : Val
  a : Val
deriving DecidableEq, Repr

/-- 4x4 matrix: 16 scalars in a row-major list (a [f32;16] in the source). -/
structure Mat4 where
  v : List Val
deriving DecidableEq, Repr

def Vec2.default : Vec2 := ⟨0, 0⟩

def Vec3.default : Vec3 := ⟨0, 0, 0⟩

def Vec4.default : Vec4 := ⟨0, 0, 0, 0⟩

def Color.default : Color := ⟨0, 0, 0, 0⟩

def Mat4.default : Mat4 := ⟨List.replicate 16 0⟩

/-- The shader value kinds the typed accessors use (subset of the live
compiler's `Ty` enum restricted to the variants area.rs mentions). -/
inductive Ty where
  | float
  | vec2
  | vec3
  | vec4
  | mat4
deriving DecidableEq, Repr

/-- Area::Instance payload: a sub-range of a draw call's instance buffer,
stamped with the generation (redraw_id) it was created in. -/
structure InstanceArea where
  view_id : Nat
  draw_call_id : Nat
  instance_offset : Nat
  instance_count : Nat
  redraw_id : Nat
deriving DecidableEq, Repr

/-- Area::View payload. -/
structure ViewArea where
  view_id : Nat
  redraw_id : Nat
deriving DecidableEq, Repr

/-- The Area handle: Empty, All, an instance range, or a whole view. -/
inductive Area where
  | Empty
  | All
  | Instance (inst : InstanceArea)
  | View (va : ViewArea)
deriving DecidableEq, Repr

/-- One registered instance property: its value kind and slot offset inside
one instance (from the shader-metadata compiler). -/
structure PropDef where
  ty : Ty
  offset : Nat
deriving DecidableEq, Repr

/-- Shader instance-property table: an association map from property
identity to an index into `props`, plus the per-instance slot count. -/
structure InstanceProps where
  prop_map : List (LiveItemId × Nat)
  props : List PropDef
  total_slots : Nat
deriving DecidableEq, Repr

/-- The part of the shader mapping the typed accessors consult. -/
structure ShaderMapping where
  instance_props : InstanceProps
deriving DecidableEq, Repr

/-- A compiled shader (only the mapping is relevant here). -/
structure CxShader where
  mapping : ShaderMapping
deriving DecidableEq, Repr

/-- A draw call: its shader, its (flat) instance float buffer, and its
dirty flag. -/
structure DrawCall where
  shader_id : Nat
  instance_buf : List Val
  instance_dirty : Bool
deriving DecidableEq, Repr

/-- A view: generation counter, owning pass, draw calls. -/
structure CxView where
  redraw_id : Nat
  pass_id : Nat
  draw_calls : List DrawCall
deriving DecidableEq, Repr

/-- A render pass (only its paint-dirty flag matters here). -/
structure CxPass where
  paint_dirty : Bool
deriving DecidableEq, Repr

/-- Registry entry for a playing animation: start_time is `none` while the
f64 NaN sentinel is stored, `some t` once stamped. -/
structure AnimInfo where
  start_time : Option ℚ
  total_time : ℚ
deriving DecidableEq, Repr

/-- The shared context: views, passes, shaders, the playing-animation
registry (a HashMap in the source, an association list here), and the
live-definition generation. -/
structure Cx where
  views : List CxView
  passes : List CxPass
  shaders : List CxShader
  playing_anim_areas : List (Area × AnimInfo)
  live_update_id : Nat
deriving DecidableEq, Repr

/-- Association-list lookup (HashMap::get, Vec::iter().find on a keyed
vector). -/
def assocGet {α β : Type} [DecidableEq α] (l : List (α × β)) (k : α) : Option β :=
  (l.find? (fun p => p.1 = k)).map (fun p => p.2)

/-- Replace the first entry keyed `k` by `v` (writing through get_mut /
iter_mut().find). -/
def assocReplace {α β : Type} [DecidableEq α] : List (α × β) → α → β → List (α × β)
  | [], _, _ => []
  | p :: rest, k, v =>
      if p.1 = k then (k, v) :: rest else p :: assocReplace rest k v

/-- Replace when present, append when absent (HashMap::insert, and the
find-then-push update pattern of last_values). -/
def assocSet {α β : Type} [DecidableEq α] (l : List (α × β)) (k : α) (v : β) :
    List (α × β) :=
  if (assocGet l k).isSome then assocReplace l k v else l ++ [(k, v)]

/-- HashMap::remove. -/
def assocRemove {α β : Type} [DecidableEq α] (l : List (α × β)) (k : α) :
    List (α × β) :=
  l.filter (fun p => p.1 ≠ k)

/-- Association lookup in a shader prop_map. -/
def propMapGet (m : List (LiveItemId × Nat)) (id : LiveItemId) : Option Nat :=
  assocGet m id

namespace Area

/-- Area::is_valid.  Indexing `cx.views` may panic (outer `none`). -/
def is_valid (a : Area) (cx : Cx) : Option Bool :=
  match a with
  | .Instance inst => do
      if inst.instance_count = 0 then
        pure false
      else
        let cxview ← cx.views[inst.view_id]?
        if cxview.redraw_id ≠ inst.redraw_id then pure false else pure true
  | .View va => do
      let cxview ← cx.views[va.view_id]?
      if cxview.redraw_id ≠ va.redraw_id then pure false else pure true
  | _ => pure false

/-- Area::get_instance_offset: resolve a property identity of an expected
kind to its slot offset.  Inner `none` = property absent or kind mismatch
(silent), outer `none` = index panic. -/
def get_instance_offset (a : Area) (cx : Cx) (id : LiveItemId) (ty : Ty) :
    Option (Option Nat) :=
  match a with
  | .Instance inst => do
      let cxview ← cx.views[inst.view_id]?
      let dc ← cxview.draw_calls[inst.draw_call_id]?
      let sh ← cx.shaders[dc.shader_id]?
      match propMapGet sh.mapping.instance_props.prop_map id with
      | some prop_id => do
          let prop ← sh.mapping.instance_props.props[prop_id]?
          if prop.ty ≠ ty then pure none else pure (some prop.offset)
      | none => pure none
  | _ => pure none

/-- The data of an InstanceReadRef (the buffer is carried by value). -/
structure ReadRef where
  offset : Nat
  slots : Nat
  count : Nat
  buffer : List Val

/-- Area::get_read_ref.  Fetches the view and the draw call (either index
may panic), then checks the generation: mismatch returns inner `none`. -/
def get_read_ref (a : Area) (cx : Cx) : Option (Option ReadRef) :=
  match a with
  | .Instance inst => do
      let cxview ← cx.views[inst.view_id]?
      let dc ← cxview.draw_calls[inst.draw_call_id]?
      if cxview.redraw_id ≠ inst.redraw_id then
        pure none
      else do
        let sh ← cx.shaders[dc.shader_id]?
        pure (some { offset := inst.instance_offset,
                     count := inst.instance_count,
                     slots := sh.mapping.instance_props.total_slots,
                     buffer := dc.instance_buf })
  | _ => pure none

/-- Set the paint-dirty flag of pass `pass_id` (cx.passes[...] = true;
performed only after the index was checked by the caller path). -/
def setPaintDirty (cx : Cx) (pass_id : Nat) : Cx :=
  match cx.passes[pass_id]? with
  | some p => { cx with passes := cx.passes.set pass_id ({ p with paint_dirty := true }) }
  | none => cx

/-- Replace draw call `dc_id` of view `view_id` by the image of `f`. -/
def modifyDrawCall (cx : Cx) (view_id dc_id : Nat) (f : DrawCall → DrawCall) : Cx :=
  match cx.views[view_id]? with
  | some v =>
      match v.draw_calls[dc_id]? with
      | some dc =>
          let v2 := { v with draw_calls := v.draw_calls.set dc_id (f dc) }
          { cx with views := cx.views.set view_id v2 }
      | none => cx
  | none => cx

/-- Area::get_write_ref.  On success it returns the read data of the
instance range together with the context whose pass paint_dirty and
draw-call instance_dirty flags are set (the side effect the source performs
before handing out the mutable buffer). -/
def get_write_ref (a : Area) (cx : Cx) : Option (Option (ReadRef × Cx)) :=
  match a with
  | .Instance inst => do
      let cxview ← cx.views[inst.view_id]?
      let dc ← cxview.draw_calls[inst.draw_call_id]?
      if cxview.redraw_id ≠ inst.redraw_id then
        pure none
      else do
        let sh ← cx.shaders[dc.shader_id]?
        let _pass ← cx.passes[cxview.pass_id]?
        let cx1 := setPaintDirty cx cxview.pass_id
        let cx1 := modifyDrawCall cx1 inst.view_id inst.draw_call_id
          (fun d => { d with instance_dirty := true })
        pure (some ({ offset := inst.instance_offset,
                      count := inst.instance_count,
                      slots := sh.mapping.instance_props.total_slots,
                      buffer := dc.instance_buf }, cx1))
  | _ => pure none

/-- Store the instance buffer of (view_id, dc_id) back into the context
(writing through the &mut the source holds). -/
def putInstance (cx : Cx) (view_id dc_id : Nat) (buf : List Val) : Cx :=
  modifyDrawCall cx view_id dc_id (fun d => { d with instance_buf := buf })

/-- Single store `buffer[i] = v`; out of bounds panics. -/
def bufWrite (buf : List Val) (i : Nat) (v : Val) : Option (List Val) :=
  if i < buf.length then some (buf.set i v) else none

/-- Write the components `comps` to consecutive slots starting at `base`
(the per-instance body of a typed write, in source order). -/
def writeComps : Nat → List Val → List Val → Option (List Val)
  | _, [], buf => some buf
  | base, c :: cs, buf => do
      let b ← bufWrite buf base c
      writeComps (base + 1) cs b

/-- The `for i in 0..count` broadcast loop of the typed writes: instance i
gets `comps` at slot `offset + io + i * slots` onward. -/
def writeInstances (offset io slots : Nat) (comps : List Val) :
    Nat → List Val → Option (List Val)
  | 0, buf => some buf
  | n + 1, buf => do
      let b ← writeInstances offset io slots comps n buf
      writeComps (offset + io + n * slots) comps b

/-- Shared tail of every typed write: resolve the offset, get the write
ref (setting the dirty flags), run the broadcast loop, store the buffer. -/
def writeProp (a : Area) (cx : Cx) (id : LiveItemId) (ty : Ty)
    (comps : List Val) : Option Cx := do
  let off? ← get_instance_offset a cx id ty
  match off? with
  | none => pure cx
  | some io =>
      let wr? ← get_write_ref a cx
      match wr? with
      | none => pure cx
      | some (w, cx1) =>
          match a with
          | .Instance inst => do
              let buf ← writeInstances w.offset io w.slots comps w.count w.buffer
              pure (putInstance cx1 inst.view_id inst.draw_call_id buf)
          | _ => pure cx1

/-- Area::write_float. -/
def write_float (a : Area) (cx : Cx) (id : LiveItemId) (v : Val) : Option Cx :=
  writeProp a cx id .float [v]

/-- Area::write_vec2 — note the source stores value.y into slot 0 and
value.x into slot 1. -/
def write_vec2 (a : Area) (cx : Cx) (id : LiveItemId) (v : Vec2) : Option Cx :=
  writeProp a cx id .vec2 [v.y, v.x]

/-- Area::write_vec3 — the source stores value.y, value.x, value.z into
slots 0, 1, 2 in that order. -/
def write_vec3 (a : Area) (cx : Cx) (id : LiveItemId) (v : Vec3) : Option Cx :=
  writeProp a cx id .vec3 [v.y, v.x, v.z]

/-- Area::write_vec4 — natural (x, y, z, w) order. -/
def write_vec4 (a : Area) (cx : Cx) (id : LiveItemId) (v : Vec4) : Option Cx :=
  writeProp a cx id .vec4 [v.x, v.y, v.z, v.w]

/-- Area::write_color — natural (r, g, b, a) order, resolved with Ty::Vec4. -/
def write_color (a : Area) (cx : Cx) (id : LiveItemId) (v : Color) : Option Cx :=
  writeProp a cx id .vec4 [v.r, v.g, v.b, v.a]

/-- Area::write_mat4 — the 16 components of value.v (the source reads
value.v[j] for j in 0..16, inside the write branch only). -/
def write_mat4 (a : Area) (cx : Cx) (id : LiveItemId) (v : Mat4) : Option Cx := do
  let off? ← get_instance_offset a cx id .mat4
  match off? with
  | none => pure cx
  | some io =>
      let wr? ← get_write_ref a cx
      match wr? with
      | none => pure cx
      | some (w, cx1) =>
          match a with
          | .Instance inst => do
              let comps ← (List.range 16).mapM (fun j => v.v[j]?)
              let buf ← writeInstances w.offset io w.slots comps w.count w.buffer
              pure (putInstance cx1 inst.view_id inst.draw_call_id buf)
          | _ => pure cx1

/-- Read `n` consecutive slots starting at `base` (panic on overflow). -/
def readComps (buf : List Val) (base : Nat) : Nat → Option (List Val)
  | 0 => some []
  | n + 1 => do
      let v ← buf[base]?
      let rest ← readComps buf (base + 1) n
      pure (v :: rest)

/-- Area::read_float. -/
def read_float (a : Area) (cx : Cx) (id : LiveItemId) : Option Val := do
  let off? ← get_instance_offset a cx id .float
  match off? with
  | none => pure 0
  | some io =>
      let rd? ← get_read_ref a cx
      match rd? with
      | none => pure 0
      | some r => buf_get r io
where
  buf_get (r : ReadRef) (io : Nat) : Option Val := r.buffer[r.offset + io]?

/-- Area::read_vec2 (slot 0 → x, slot 1 → y). -/
def read_vec2 (a : Area) (cx : Cx) (id : LiveItemId) : Option Vec2 := do
  let off? ← get_instance_offset a cx id .vec2
  match off? with
  | none => pure Vec2.default
  | some io =>
      let rd? ← get_read_ref a cx
      match rd? with
      | none => pure Vec2.default
      | some r => do
          let x ← r.buffer[r.offset + io]?
          let y ← r.buffer[r.offset + io + 1]?
          pure ⟨x, y⟩

/-- Area::read_vec3 (slots 0,1,2 → x,y,z). -/
def read_vec3 (a : Area) (cx : Cx) (id : LiveItemId) : Option Vec3 := do
  let off? ← get_instance_offset a cx id .vec3
  match off? with
  | none => pure Vec3.default
  | some io =>
      let rd? ← get_read_ref a cx
      match rd? with
      | none => pure Vec3.default
      | some r => do
          let x ← r.buffer[r.offset + io]?
          let y ← r.buffer[r.offset + io + 1]?
          let z ← r.buffer[r.offset + io + 2]?
          pure ⟨x, y, z⟩

/-- Area::read_vec4. -/
def read_vec4 (a : Area) (cx : Cx) (id : LiveItemId) : Option Vec4 := do
  let off? ← get_instance_offset a cx id .vec4
  match off? with
  | none => pure Vec4.default
  | some io =>
      let rd? ← get_read_ref a cx
      match rd? with
      | none => pure Vec4.default
      | some r => do
          let x ← r.buffer[r.offset + io]?
          let y ← r.buffer[r.offset + io + 1]?
          let z ← r.buffer[r.offset + io + 2]?
          let w ← r.buffer[r.offset + io + 3]?
          pure ⟨x, y, z, w⟩

/-- Area::read_color (resolved with Ty::Vec4). -/
def read_color (a : Area) (cx : Cx) (id : LiveItemId) : Option Color := do
  let off? ← get_instance_offset a cx id .vec4
  match off? with
  | none => pure Color.default
  | some io =>
      let rd? ← get_read_ref a cx
      match rd? with
      | none => pure Color.default
      | some r => do
          let cr ← r.buffer[r.offset + io]?
          let cg ← r.buffer[r.offset + io + 1]?
          let cb ← r.buffer[r.offset + io + 2]?
          let ca ← r.buffer[r.offset + io + 3]?
          pure ⟨cr, cg, cb, ca⟩

/-- Area::read_mat4: starts from Mat4::default and overwrites v[j] with
buffer[offset + io + j] for j in 0..16. -/
def read_mat4 (a : Area) (cx : Cx) (id : LiveItemId) : Option Mat4 := do
  let off? ← get_instance_offset a cx id .mat4
  match off? with
  | none => pure Mat4.default
  | some io =>
      let rd? ← get_read_ref a cx
      match rd? with
      | none => pure Mat4.default
      | some r => do
          let comps ← readComps r.buffer (r.offset + io) 16
          pure ⟨comps⟩

/-- The instance buffer an Instance area points at (observer used by the
theorems, not part of the source API). -/
def instBuf (cx : Cx) (a : Area) : Option (List Val) :=
  match a with
  | .Instance inst => do
      let v ← cx.views[inst.view_id]?
      let dc ← v.draw_calls[inst.draw_call_id]?
      pure dc.instance_buf
  | _ => none

/-- The paint_dirty flag of the pass owning an Instance area's view
(observer used by the theorems). -/
def paintDirtyFlag (cx : Cx) (a : Area) : Option Bool :=
  match a with
  | .Instance inst => do
      let v ← cx.views[inst.view_id]?
      let p ← cx.passes[v.pass_id]?
      pure p.paint_dirty
  | _ => none

/-- The instance_dirty flag of an Instance area's draw call (observer used
by the theorems). -/
def instDirtyFlag (cx : Cx) (a : Area) : Option Bool :=
  match a with
  | .Instance inst => do
      let v ← cx.views[inst.view_id]?
      let dc ← v.draw_calls[inst.draw_call_id]?
      pure dc.instance_dirty
  | _ => none

end Area

/-! ## Animator (src/render/src/animator.rs)

The `Play`, `Ease` and `Track::compute_track_*` definitions live in the
live-compiler crate, outside the files under verification; they are
modelled from the spec where noted. -/

/-- Modelled from the spec: the playback policy of an Anim — `Cut`
(replace immediately) vs `Chain` (queue after current); the `Play` type
itself is defined outside the files under verification. -/
inductive Policy where
  | Cut
  | Chain
deriving DecidableEq, Repr

/-- Modelled from the spec: an Anim's playback descriptor — policy,
terminal (non-interruptible) flag, and total duration.  Play is defined
outside the files under verification; animator.rs uses it only through
`cut()`, `term()`, `total_time()` and `compute_time()`. -/
structure Play where
  policy : Policy
  terminal : Bool
  duration : ℚ
deriving DecidableEq, Repr

/-- Play::cut(): whether the policy replaces the current Anim. -/
def Play.cut (p : Play) : Bool :=
  match p.policy with
  | .Cut => true
  | .Chain => false

/-- Play::term(): whether the Anim is terminal (cancel-proof). -/
def Play.term (p : Play) : Bool := p.terminal

/-- Play::total_time(): the Anim's total duration. -/
def Play.total_time (p : Play) : ℚ := p.duration

/-- Modelled from the spec: Play::compute_time normalizes the local
elapsed time against the total duration (track key times live in [0,1]). -/
def Play.compute_time (p : Play) (t : ℚ) : ℚ :=
  if p.duration = 0 then t else t / p.duration

/-- Modelled from the spec: an easing function remapping a local fraction;
defined outside the files under verification and treated as opaque data. -/
def Ease := ℚ → ℚ

/-- A Track: one property's key-framed timeline, one variant per value
kind; fields as matched by animator.rs (`bind_to`, `keys`, `cut_init`,
`ease`). -/
inductive Track where
  | Float (bind_to : LiveItemId) (keys : List (ℚ × Val)) (cut_init : Bool) (ease : Ease)
  | Vec2 (bind_to : LiveItemId) (keys : List (ℚ × Vec2)) (cut_init : Bool) (ease : Ease)
  | Vec3 (bind_to : LiveItemId) (keys : List (ℚ × Vec3)) (cut_init : Bool) (ease : Ease)
  | Vec4 (bind_to : LiveItemId) (keys : List (ℚ × Vec4)) (cut_init : Bool) (ease : Ease)
  | Color (bind_to : LiveItemId) (keys : List (ℚ × Color)) (cut_init : Bool) (ease : Ease)

/-- Track::bind_id(). -/
def Track.bind_id : Track → LiveItemId
  | .Float b _ _ _ => b
  | .Vec2 b _ _ _ => b
  | .Vec3 b _ _ _ => b
  | .Vec4 b _ _ _ => b
  | .Color b _ _ _ => b

/-- An Anim: playback descriptor plus ordered tracks. -/
structure Anim where
  play : Play
  tracks : List Track

/-- Scalar linear interpolation. -/
def lerpVal (a b : Val) (f : ℚ) : Val := a + (b - a) * f

def Vec2.lerp (a b : Vec2) (f : ℚ) : Vec2 :=
  ⟨lerpVal a.x b.x f, lerpVal a.y b.y f⟩

def Vec3.lerp (a b : Vec3) (f : ℚ) : Vec3 :=
  ⟨lerpVal a.x b.x f, lerpVal a.y b.y f, lerpVal a.z b.z f⟩

def Vec4.lerp (a b : Vec4) (f : ℚ) : Vec4 :=
  ⟨lerpVal a.x b.x f, lerpVal a.y b.y f, lerpVal a.z b.z f, lerpVal a.w b.w f⟩

def Color.lerp (a b : Color) (f : ℚ) : Color :=
  ⟨lerpVal a.r b.r f, lerpVal a.g b.g f, lerpVal a.b b.b f, lerpVal a.a b.a f⟩

/-- Walk the keys to the bracketing pair (k0, k1) around `t`, ease the
local fraction, and interpolate; past the last key, hold its value. -/
def trackWalk {α : Type} (lerp : α → α → ℚ → α) (ease : Ease) (t : ℚ) :
    (ℚ × α) → List (ℚ × α) → α
  | k0, [] => k0.2
  | k0, k1 :: rest =>
      if t < k1.1 then
        lerp k0.2 k1.2 (ease ((t - k0.1) / (k1.1 - k0.1)))
      else trackWalk lerp ease t k1 rest

/-- Modelled from the spec (§4.2): Track::compute_track_* — empty keys
give the kind's zero; at or before the first key the result is the
observed fallback if cut_init, else the first key's value; afterwards
bracket, ease the fraction and interpolate per component. -/
def compute_track {α : Type} (zero : α) (lerp : α → α → ℚ → α) (time : ℚ)
    (keys : List (ℚ × α)) (cut_init : Bool) (init : α) (ease : Ease) : α :=
  match keys with
  | [] => zero
  | k0 :: rest =>
      if time ≤ k0.1 then (if cut_init then init else k0.2)
      else trackWalk lerp ease time k0 rest

def Track.compute_track_float (time : ℚ) (keys : List (ℚ × Val))
    (cut_init : Bool) (init : Val) (ease : Ease) : Val :=
  compute_track 0 lerpVal time keys cut_init init ease

def Track.compute_track_vec2 (time : ℚ) (keys : List (ℚ × Makepad.Vec2))
    (cut_init : Bool) (init : Makepad.Vec2) (ease : Ease) : Makepad.Vec2 :=
  compute_track Vec2.default Vec2.lerp time keys cut_init init ease

def Track.compute_track_vec3 (time : ℚ) (keys : List (ℚ × Makepad.Vec3))
    (cut_init : Bool) (init : Makepad.Vec3) (ease : Ease) : Makepad.Vec3 :=
  compute_track Vec3.default Vec3.lerp time keys cut_init init ease

def Track.compute_track_vec4 (time : ℚ) (keys : List (ℚ × Makepad.Vec4))
    (cut_init : Bool) (init : Makepad.Vec4) (ease : Ease) : Makepad.Vec4 :=
  compute_track Vec4.default Vec4.lerp time keys cut_init init ease

def Track.compute_track_color (time : ℚ) (keys : List (ℚ × Makepad.Color))
    (cut_init : Bool) (init : Makepad.Color) (ease : Ease) : Makepad.Color :=
  compute_track Color.default Color.lerp time keys cut_init init ease

/-- AnimLastValue: the typed last-resolved-value cache entry. -/
inductive AnimLastValue where
  | Float (v : Val)
  | Vec2 (v : Vec2)
  | Vec3 (v : Vec3)
  | Vec4 (v : Vec4)
  | Color (v : Color)
deriving DecidableEq, Repr

/-- The per-object animation state machine. -/
structure Animator where
  current : Option Anim
  next : Option Anim
  area : Area
  live_update_id : Nat
  last_values : List (LiveItemId × AnimLastValue)

/-- The trailing value a track contributes to last_values: its final key's
value, or the kind's default when it has no keys. -/
def Track.last_value : Track → AnimLastValue
  | .Float _ keys _ _ =>
      .Float (match keys.getLast? with | some k => k.2 | none => 0)
  | .Vec2 _ keys _ _ =>
      .Vec2 (match keys.getLast? with | some k => k.2 | none => Vec2.default)
  | .Vec3 _ keys _ _ =>
      .Vec3 (match keys.getLast? with | some k => k.2 | none => Vec3.default)
  | .Vec4 _ keys _ _ =>
      .Vec4 (match keys.getLast? with | some k => k.2 | none => Vec4.default)
  | .Color _ keys _ _ =>
      .Color (match keys.getLast? with | some k => k.2 | none => Color.default)

namespace Animator

/-- Animator::set_anim_as_last_values: for every track, write its final
key value (or kind default) into last_values, replacing the first entry
with that bind id or pushing a new one. -/
def set_anim_as_last_values (self : Animator) (anim : Anim) : Animator :=
  let lv := anim.tracks.foldl (fun lv tr => assocSet lv tr.bind_id tr.last_value) self.last_values
  { self with last_values := lv }

/-- Animator::end (force-terminate current, snapshotting its trailing
values); named end_current here because `end` is reserved in Lean. -/
def end_current (self : Animator) : Animator :=
  match self.current with
  | some current =>
      set_anim_as_last_values { self with current := none } current
  | none => self

/-- Animator::end_and_set. -/
def end_and_set (self : Animator) (anim : Anim) : Animator :=
  set_anim_as_last_values { self with current := none } anim

/-- Animator::term_anim_playing. -/
def term_anim_playing (self : Animator) : Bool :=
  match self.current with
  | some current => current.play.term
  | none => false

/-- Animator::play_anim.  `none` models an index panic inside
Area::is_valid (out-of-bounds view id). -/
def play_anim (self : Animator) (cx : Cx) (anim : Anim) :
    Option (Animator × Cx) :=
  let self := { self with live_update_id := cx.live_update_id }
  if self.term_anim_playing then some (self, cx)
  else do
    let valid ← self.area.is_valid cx
    if valid = false then
      let self := (self.set_anim_as_last_values anim)
      pure ({ self with current := some anim }, cx)
    else
      match assocGet cx.playing_anim_areas self.area with
      | some anim_info =>
          if anim.play.cut || self.current.isNone then
            let self := { self with current := some anim, next := none }
            let info : AnimInfo :=
              { start_time := none, total_time := anim.play.total_time }
            let r := assocSet cx.playing_anim_areas self.area info
            pure (self, { cx with playing_anim_areas := r })
          else
            match self.current with
            | some cur =>
                let self := { self with next := some anim }
                let tt := cur.play.total_time + anim.play.total_time
                let info : AnimInfo := { anim_info with total_time := tt }
                let r := assocSet cx.playing_anim_areas self.area info
                pure (self, { cx with playing_anim_areas := r })
            | none => none
      | none =>
          if self.area ≠ Area.Empty then
            let self := { self with current := some anim, next := none }
            let info : AnimInfo :=
              { start_time := none, total_time := anim.play.total_time }
            let r := assocSet cx.playing_anim_areas self.area info
            pure (self, { cx with playing_anim_areas := r })
          else pure (self, cx)

/-- Animator::update_anim_track: stamp the start time on first
observation, promote next→current at a chain boundary, and return the
normalized local time (`none` = no active time). -/
def update_anim_track (self : Animator) (cx : Cx) (time : ℚ) :
    Animator × Cx × Option ℚ :=
  match self.current with
  | none =>
      let r := assocRemove cx.playing_anim_areas self.area
      (self, { cx with playing_anim_areas := r }, none)
  | some cur =>
      match assocGet cx.playing_anim_areas self.area with
      | none => (self, cx, none)
      | some info0 =>
          let info1 := if info0.start_time.isNone
            then { info0 with start_time := some time } else info0
          match info1.start_time with
          | none => (self, cx, none)
          | some st =>
              let ctt := cur.play.total_time
              match self.next with
              | some nxt =>
                  if ctt ≤ time - st then
                    let info2 : AnimInfo :=
                      { start_time := some (st + ctt),
                        total_time := info1.total_time - ctt }
                    let r := assocSet cx.playing_anim_areas self.area info2
                    ({ self with current := some nxt, next := none },
                     { cx with playing_anim_areas := r },
                     some (nxt.play.compute_time (time - (st + ctt))))
                  else
                    let r := assocSet cx.playing_anim_areas self.area info1
                    (self, { cx with playing_anim_areas := r },
                     some (cur.play.compute_time (time - st)))
              | none =>
                  let r := assocSet cx.playing_anim_areas self.area info1
                  (self, { cx with playing_anim_areas := r },
                   some (cur.play.compute_time (time - st)))

/-- Animator::find_track_index.  Outer `none` models the unwrap panic when
no current Anim exists. -/
def find_track_index (self : Animator) (bind_id : LiveItemId) :
    Option (Option Nat) :=
  match self.current with
  | none => none
  | some cur => some (cur.tracks.findIdx? (fun tr => tr.bind_id = bind_id))

/-- Animator::_last_float: kind-typed cache read (first entry with the id;
a different-kind entry also yields the default). -/
def _last_float (bind_id : LiveItemId)
    (lv : List (LiveItemId × AnimLastValue)) : Val :=
  match assocGet lv bind_id with
  | some (.Float v) => v
  | _ => 0

def _last_vec2 (bind_id : LiveItemId)
    (lv : List (LiveItemId × AnimLastValue)) : Vec2 :=
  match assocGet lv bind_id with
  | some (.Vec2 v) => v
  | _ => Vec2.default

def _last_vec3 (bind_id : LiveItemId)
    (lv : List (LiveItemId × AnimLastValue)) : Vec3 :=
  match assocGet lv bind_id with
  | some (.Vec3 v) => v
  | _ => Vec3.default

def _last_vec4 (bind_id : LiveItemId)
    (lv : List (LiveItemId × AnimLastValue)) : Vec4 :=
  match assocGet lv bind_id with
  | some (.Vec4 v) => v
  | _ => Vec4.default

def _last_color (bind_id : LiveItemId)
    (lv : List (LiveItemId × AnimLastValue)) : Color :=
  match assocGet lv bind_id with
  | some (.Color v) => v
  | _ => Color.default

/-- Animator::last_float (no time advance). -/
def last_float (self : Animator) (bind_id : LiveItemId) : Val :=
  _last_float bind_id self.last_values

def last_vec2 (self : Animator) (bind_id : LiveItemId) : Vec2 :=
  _last_vec2 bind_id self.last_values

def last_vec3 (self : Animator) (bind_id : LiveItemId) : Vec3 :=
  _last_vec3 bind_id self.last_values

def last_vec4 (self : Animator) (bind_id : LiveItemId) : Vec4 :=
  _last_vec4 bind_id self.last_values

def last_color (self : Animator) (bind_id : LiveItemId) : Color :=
  _last_color bind_id self.last_values

/-- Animator::_set_last_float and friends: replace the first cache entry
with the id or push a new one at the end. -/
def _set_last_float (bind_id : LiveItemId) (value : Val)
    (lv : List (LiveItemId × AnimLastValue)) : List (LiveItemId × AnimLastValue) :=
  assocSet lv bind_id (.Float value)

def _set_last_vec2 (bind_id : LiveItemId) (value : Vec2)
    (lv : List (LiveItemId × AnimLastValue)) : List (LiveItemId × AnimLastValue) :=
  assocSet lv bind_id (.Vec2 value)

def _set_last_vec3 (bind_id : LiveItemId) (value : Vec3)
    (lv : List (LiveItemId × AnimLastValue)) : List (LiveItemId × AnimLastValue) :=
  assocSet lv bind_id (.Vec3 value)

def _set_last_vec4 (bind_id : LiveItemId) (value : Vec4)
    (lv : List (LiveItemId × AnimLastValue)) : List (LiveItemId × AnimLastValue) :=
  assocSet lv bind_id (.Vec4 value)

def _set_last_color (bind_id : LiveItemId) (value : Color)
    (lv : List (LiveItemId × AnimLastValue)) : List (LiveItemId × AnimLastValue) :=
  assocSet lv bind_id (.Color value)

/-- Animator::calc_float: fallback is the cached last value; with an
active local time and a matching Float track, interpolate; the result is
always written back to the cache.  `none` models the (unreachable in the
calling discipline) unwrap/index panics. -/
def calc_float (self : Animator) (cx : Cx) (bind_id : LiveItemId) (time : ℚ) :
    Option (Animator × Cx × Val) :=
  let last := _last_float bind_id self.last_values
  match self.update_anim_track cx time with
  | (a1, cx1, none) =>
      some ({ a1 with last_values := _set_last_float bind_id last a1.last_values },
            cx1, last)
  | (a1, cx1, some t) => do
      let ti? ← a1.find_track_index bind_id
      match ti? with
      | none =>
          pure ({ a1 with last_values := _set_last_float bind_id last a1.last_values },
                cx1, last)
      | some i => do
          let cur ← a1.current
          let tr ← cur.tracks[i]?
          let ret :=
            match tr with
            | Track.Float _ keys cut_init ease =>
                Track.compute_track_float t keys cut_init last ease
            | _ => last
          pure ({ a1 with last_values := _set_last_float bind_id ret a1.last_values },
                cx1, ret)

/-- Animator::calc_vec2 (same structure as calc_float). -/
def calc_vec2 (self : Animator) (cx : Cx) (bind_id : LiveItemId) (time : ℚ) :
    Option (Animator × Cx × Vec2) :=
  let last := _last_vec2 bind_id self.last_values
  match self.update_anim_track cx time with
  | (a1, cx1, none) =>
      some ({ a1 with last_values := _set_last_vec2 bind_id last a1.last_values },
            cx1, last)
  | (a1, cx1, some t) => do
      let ti? ← a1.find_track_index bind_id
      match ti? with
      | none =>
          pure ({ a1 with last_values := _set_last_vec2 bind_id last a1.last_values },
                cx1, last)
      | some i => do
          let cur ← a1.current
          let tr ← cur.tracks[i]?
          let ret :=
            match tr with
            | Track.Vec2 _ keys cut_init ease =>
                Track.compute_track_vec2 t keys cut_init last ease
            | _ => last
          pure ({ a1 with last_values := _set_last_vec2 bind_id ret a1.last_values },
                cx1, ret)

/-- Animator::calc_vec3. -/
def calc_vec3 (self : Animator) (cx : Cx) (bind_id : LiveItemId) (time : ℚ) :
    Option (Animator × Cx × Vec3) :=
  let last := _last_vec3 bind_id self.last_values
  match self.update_anim_track cx time with
  | (a1, cx1, none) =>
      some ({ a1 with last_values := _set_last_vec3 bind_id last a1.last_values },
            cx1, last)
  | (a1, cx1, some t) => do
      let ti? ← a1.find_track_index bind_id
      match ti? with
      | none =>
          pure ({ a1 with last_values := _set_last_vec3 bind_id last a1.last_values },
                cx1, last)
      | some i => do
          let cur ← a1.current
          let tr ← cur.tracks[i]?
          let ret :=
            match tr with
            | Track.Vec3 _ keys cut_init ease =>
                Track.compute_track_vec3 t keys cut_init last ease
            | _ => last
          pure ({ a1 with last_values := _set_last_vec3 bind_id ret a1.last_values },
                cx1, ret)

/-- Animator::calc_vec4. -/
def calc_vec4 (self : Animator) (cx : Cx) (bind_id : LiveItemId) (time : ℚ) :
    Option (Animator × Cx × Vec4) :=
  let last := _last_vec4 bind_id self.last_values
  match self.update_anim_track cx time with
  | (a1, cx1, none) =>
      some ({ a1 with last_values := _set_last_vec4 bind_id last a1.last_values },
            cx1, last)
  | (a1, cx1, some t) => do
      let ti? ← a1.find_track_index bind_id
      match ti? with
      | none =>
          pure ({ a1 with last_values := _set_last_vec4 bind_id last a1.last_values },
                cx1, last)
      | some i => do
          let cur ← a1.current
          let tr ← cur.tracks[i]?
          let ret :=
            match tr with
            | Track.Vec4 _ keys cut_init ease =>
                Track.compute_track_vec4 t keys cut_init last ease
            | _ => last
          pure ({ a1 with last_values := _set_last_vec4 bind_id ret a1.last_values },
                cx1, ret)

/-- Animator::calc_color — unlike the other kinds, every fallback path
returns Color::default() and leaves the cache untouched; only a matched
Color track computes, caches and returns an interpolated value. -/
def calc_color (self : Animator) (cx : Cx) (bind_id : LiveItemId) (time : ℚ) :
    Option (Animator × Cx × Color) :=
  match self.update_anim_track cx time with
  | (a1, cx1, none) => some (a1, cx1, Color.default)
  | (a1, cx1, some t) => do
      let ti? ← a1.find_track_index bind_id
      match ti? with
      | none => pure (a1, cx1, Color.default)
      | some i => do
          let cur ← a1.current
          let tr ← cur.tracks[i]?
          match tr with
          | Track.Color _ keys cut_init ease =>
              let last := _last_color bind_id a1.last_values
              let ret := Track.compute_track_color t keys cut_init last ease
              let lv := _set_last_color bind_id ret a1.last_values
              pure ({ a1 with last_values := lv }, cx1, ret)
          | _ => pure (a1, cx1, Color.default)

end Animator

end Makepad

namespace Makepad

/-- A small concrete rendering context used to exercise the accessors:
one view (generation 5) with one draw call over a shader registering a
float property (id 1, offset 0), a vec2 (id 2, offset 1), a vec3 (id 3,
offset 3) and a vec4 (id 4, offset 6), 10 slots per instance, and a
two-instance buffer of zeros. -/
def sampleShader : CxShader :=
  ⟨⟨⟨[(1, 0), (2, 1), (3, 2), (4, 3)],
     [⟨.float, 0⟩, ⟨.vec2, 1⟩, ⟨.vec3, 3⟩, ⟨.vec4, 6⟩], 10⟩⟩⟩

def sampleDrawCall : DrawCall := ⟨0, List.replicate 20 0, false⟩

def sampleView : CxView := ⟨5, 0, [sampleDrawCall]⟩

def sampleCx : Cx := ⟨[sampleView], [⟨false⟩], [sampleShader], [], 0⟩

def sampleArea : Area := .Instance ⟨0, 0, 0, 2, 5⟩

/-- The same handle stamped with an outdated generation. -/
def staleArea : Area := .Instance ⟨0, 0, 0, 2, 4⟩

end Makepad

namespace Makepad

/-- Identity easing used by the concrete examples. -/
def sampleEase : Ease := fun t => t

/-- A 2-second cut animation with no tracks. -/
def animA : Anim := ⟨⟨.Cut, false, 2⟩, []⟩

/-- A 3-second chained animation with no tracks. -/
def animB : Anim := ⟨⟨.Chain, false, 3⟩, []⟩

/-- A terminal (non-interruptible) animation. -/
def termAnim : Anim := ⟨⟨.Cut, true, 1⟩, []⟩

/-- A float track bound to property 9 ending at value 5. -/
def sampleTrack : Track := .Float 9 [(0, 0), (1, 5)] false sampleEase

/-- A 1-second animation carrying sampleTrack. -/
def animT : Anim := ⟨⟨.Cut, false, 1⟩, [sampleTrack]⟩

/-- An idle animator bound to the sample area. -/
def idleAnimator : Animator := ⟨none, none, sampleArea, 0, []⟩

/-- An animator currently playing the terminal animation. -/
def termAnimator : Animator := ⟨some termAnim, none, sampleArea, 0, []⟩

/-- An animator playing animT with a stale cached value for property 9. -/
def trackAnimator : Animator := ⟨some animT, none, sampleArea, 0, [(9, .Float 99)]⟩

/-- An idle animator with cached values: a non-default color under id 7
and a float under id 8. -/
def cachedAnimator : Animator :=
  ⟨none, none, sampleArea, 0, [(7, .Color ⟨1, 1, 1, 1⟩), (8, .Float 3)]⟩

end Makepad

namespace Makepad

/-- The per-kind final-key property used to state the end() snapshot claim:
when the track has a final key, the typed cache read returns its value. -/
def Track.final_key_cached (lv : List (LiveItemId × AnimLastValue)) :
    Track → Prop
  | .Float b keys _ _ => ∀ k, keys.getLast? = some k →
      Animator._last_float b lv = k.2
  | .Vec2 b keys _ _ => ∀ k, keys.getLast? = some k →
      Animator._last_vec2 b lv = k.2
  | .Vec3 b keys _ _ => ∀ k, keys.getLast? = some k →
      Animator._last_vec3 b lv = k.2
  | .Vec4 b keys _ _ => ∀ k, keys.getLast? = some k →
      Animator._last_vec4 b lv = k.2
  | .Color b keys _ _ => ∀ k, keys.getLast? = some k →
      Animator._last_color b lv = k.2

end Makepad

namespace Makepad
namespace Area

/-- writeComps succeeds when the components fit, preserves the length,
stores comps[j] at base+j, and leaves other indices unchanged. -/
theorem writeComps_spec (comps : List Val) (base : Nat) (buf : List Val)
    (hfit : base + comps.length ≤ buf.length) :
    ∃ buf', writeComps base comps buf = some buf' ∧
      buf'.length = buf.length ∧
      (∀ j, j < comps.length → buf'[base + j]? = comps[j]?) ∧
      (∀ k, k < base ∨ base + comps.length ≤ k → buf'[k]? = buf[k]?) := by
  induction comps generalizing base buf with
  | nil =>
      exact ⟨buf, rfl, rfl, by simp, fun k _ => rfl⟩
  | cons c cs ih =>
      have hlt : base < buf.length := by
        simp only [List.length_cons] at hfit; omega
      have hfit' : (base + 1) + cs.length ≤ (buf.set base c).length := by
        simp only [List.length_set, List.length_cons] at hfit ⊢; omega
      obtain ⟨buf', h1, h2, h3, h4⟩ := ih (base + 1) (buf.set base c) hfit'
      refine ⟨buf', ?_, ?_, ?_, ?_⟩
      · simp only [writeComps, bufWrite, hlt, if_pos, Option.bind_eq_bind,
          Option.some_bind]
        exact h1
      · rw [h2, List.length_set]
      · intro j hj
        cases j with
        | zero =>
            have := h4 base (Or.inl (by omega))
            simp only [Nat.add_zero] at this ⊢
            rw [this, List.getElem?_set_eq_of_lt c hlt]
            simp
        | succ n =>
            have hn : n < cs.length := by
              simp only [List.length_cons] at hj; omega
            have hidx : base + (n + 1) = (base + 1) + n := by omega
            rw [hidx, h3 n hn, List.getElem?_cons_succ]
      · intro k hk
        have hlc : (c :: cs).length = cs.length + 1 := rfl
        rw [hlc] at hk
        have hne : base ≠ k := by omega
        have hk' : k < base + 1 ∨ (base + 1) + cs.length ≤ k := by omega
        rw [h4 k hk', List.getElem?_set_ne hne]

/-- The broadcast loop succeeds when every instance's component range fits,
preserves the length, and stores comps[j] at slot j of every instance. -/
theorem writeInstances_spec (offset io slots : Nat) (comps : List Val)
    (count : Nat) (buf : List Val)
    (hslots : io + comps.length ≤ slots)
    (hlen : offset + count * slots ≤ buf.length) :
    ∃ buf', writeInstances offset io slots comps count buf = some buf' ∧
      buf'.length = buf.length ∧
      (∀ i j, i < count → j < comps.length →
        buf'[offset + io + i * slots + j]? = comps[j]?) := by
  induction count with
  | zero => exact ⟨buf, rfl, rfl, by omega⟩
  | succ n ih =>
      have hsm : (n + 1) * slots = n * slots + slots := by ring
      have hlen' : offset + n * slots ≤ buf.length := by
        rw [hsm] at hlen; omega
      obtain ⟨mid, h1, h2, h3⟩ := ih hlen'
      have hfit : (offset + io + n * slots) + comps.length ≤ mid.length := by
        rw [hsm] at hlen; omega
      obtain ⟨buf', g1, g2, g3, g4⟩ :=
        writeComps_spec comps (offset + io + n * slots) mid hfit
      refine ⟨buf', ?_, by rw [g2, h2], ?_⟩
      · simp only [writeInstances, Option.bind_eq_bind, h1, Option.some_bind]
        exact g1
      · intro i j hi hj
        by_cases hin : i = n
        · subst hin
          exact g3 j hj
        · have hilt : i < n := by omega
          have hmul : (i + 1) * slots ≤ n * slots :=
            Nat.mul_le_mul_right slots (by omega)
          have hism : (i + 1) * slots = i * slots + slots := by ring
          have hk : offset + io + i * slots + j < offset + io + n * slots := by
            omega
          rw [g4 _ (Or.inl hk)]
          exact h3 i j hilt hj

end Area
end Makepad

namespace Makepad
namespace Area

theorem setPaintDirty_views (cx : Cx) (pid : Nat) :
    (setPaintDirty cx pid).views = cx.views := by
  unfold setPaintDirty
  cases cx.passes[pid]? <;> rfl

theorem setPaintDirty_shaders (cx : Cx) (pid : Nat) :
    (setPaintDirty cx pid).shaders = cx.shaders := by
  unfold setPaintDirty
  cases cx.passes[pid]? <;> rfl

theorem setPaintDirty_passes_get (cx : Cx) (pid : Nat) (p : CxPass)
    (hp : cx.passes[pid]? = some p) :
    (setPaintDirty cx pid).passes[pid]? = some { p with paint_dirty := true } := by
  have hlt : pid < cx.passes.length := (List.getElem?_eq_some.mp hp).1
  unfold setPaintDirty
  simp only [hp]
  exact List.getElem?_set_eq_of_lt _ hlt

theorem modifyDrawCall_passes (cx : Cx) (vid did : Nat) (f : DrawCall → DrawCall) :
    (modifyDrawCall cx vid did f).passes = cx.passes := by
  unfold modifyDrawCall
  split
  · split <;> rfl
  · rfl

theorem modifyDrawCall_shaders (cx : Cx) (vid did : Nat) (f : DrawCall → DrawCall) :
    (modifyDrawCall cx vid did f).shaders = cx.shaders := by
  unfold modifyDrawCall
  split
  · split <;> rfl
  · rfl

theorem modifyDrawCall_views_get (cx : Cx) (vid did : Nat)
    (f : DrawCall → DrawCall) (v : CxView) (dc : DrawCall)
    (hv : cx.views[vid]? = some v) (hd : v.draw_calls[did]? = some dc) :
    (modifyDrawCall cx vid did f).views[vid]? =
      some { v with draw_calls := v.draw_calls.set did (f dc) } := by
  have hlt : vid < cx.views.length := (List.getElem?_eq_some.mp hv).1
  unfold modifyDrawCall
  simp only [hv, hd]
  exact List.getElem?_set_eq_of_lt _ hlt

end Area
end Makepad

namespace Makepad
namespace Area

/-- Characterization of a successful typed write on a valid instance area:
the write succeeds, broadcasts the components to every spanned instance,
sets both dirty flags, and leaves the shader metadata (hence offset
resolution) and the generation check unchanged. -/
theorem writeProp_spec
    (inst : InstanceArea) (cx : Cx) (view : CxView) (dc : DrawCall)
    (sh : CxShader) (pass : CxPass) (id : LiveItemId) (ty : Ty)
    (io : Nat) (comps : List Val)
    (hv : cx.views[inst.view_id]? = some view)
    (hd : view.draw_calls[inst.draw_call_id]? = some dc)
    (hr : view.redraw_id = inst.redraw_id)
    (hs : cx.shaders[dc.shader_id]? = some sh)
    (hp : cx.passes[view.pass_id]? = some pass)
    (hoff : get_instance_offset (.Instance inst) cx id ty = some (some io))
    (hslots : io + comps.length ≤ sh.mapping.instance_props.total_slots)
    (hlen : inst.instance_offset +
        inst.instance_count * sh.mapping.instance_props.total_slots ≤
        dc.instance_buf.length) :
    ∃ cx' buf',
      writeProp (.Instance inst) cx id ty comps = some cx' ∧
      buf'.length = dc.instance_buf.length ∧
      (∀ i j, i < inst.instance_count → j < comps.length →
        buf'[inst.instance_offset + io +
          i * sh.mapping.instance_props.total_slots + j]? = comps[j]?) ∧
      instBuf cx' (.Instance inst) = some buf' ∧
      get_read_ref (.Instance inst) cx' = some (some
        ⟨inst.instance_offset, sh.mapping.instance_props.total_slots,
         inst.instance_count, buf'⟩) ∧
      (∀ id' ty', get_instance_offset (.Instance inst) cx' id' ty' =
        get_instance_offset (.Instance inst) cx id' ty') ∧
      paintDirtyFlag cx' (.Instance inst) = some true ∧
      instDirtyFlag cx' (.Instance inst) = some true := by
  obtain ⟨buf', hw, hlenb, hcontent⟩ :=
    writeInstances_spec inst.instance_offset io
      sh.mapping.instance_props.total_slots comps inst.instance_count
      dc.instance_buf hslots hlen
  have hdlt : inst.draw_call_id < view.draw_calls.length :=
    (List.getElem?_eq_some.mp hd).1
  set dcD : DrawCall := { dc with instance_dirty := true } with hdcD
  set dcF : DrawCall := { dcD with instance_buf := buf' } with hdcF
  set cx1 : Cx := modifyDrawCall (setPaintDirty cx view.pass_id)
      inst.view_id inst.draw_call_id
      (fun d => { d with instance_dirty := true }) with hcx1
  have hgw : get_write_ref (.Instance inst) cx = some (some
      (⟨inst.instance_offset, sh.mapping.instance_props.total_slots,
        inst.instance_count, dc.instance_buf⟩, cx1)) := by
    simp [get_write_ref, hv, hd, hs, hp, hr, hcx1]
  have hfinal : writeProp (.Instance inst) cx id ty comps =
      some (putInstance cx1 inst.view_id inst.draw_call_id buf') := by
    simp only [writeProp, hoff, Option.bind_eq_bind, Option.some_bind, hgw, hw]
    rfl
  set viewD : CxView := { view with draw_calls := view.draw_calls.set inst.draw_call_id dcD } with hviewD
  set viewF : CxView := { view with draw_calls := view.draw_calls.set inst.draw_call_id dcF } with hviewF
  have hv1 : cx1.views[inst.view_id]? = some viewD := by
    rw [hcx1]
    exact modifyDrawCall_views_get _ _ _ _ view dc
      (by rw [setPaintDirty_views]; exact hv) hd
  have hd1 : viewD.draw_calls[inst.draw_call_id]? = some dcD := by
    rw [hviewD]
    exact List.getElem?_set_eq_of_lt _ hdlt
  have hvF : (putInstance cx1 inst.view_id inst.draw_call_id buf').views[inst.view_id]? =
      some viewF := by
    unfold putInstance
    have hmv := modifyDrawCall_views_get cx1 inst.view_id inst.draw_call_id
      (fun d => { d with instance_buf := buf' }) _ dcD hv1 hd1
    rw [hmv, hviewD, hviewF]
    simp only [List.set_set]
  have hdF : viewF.draw_calls[inst.draw_call_id]? = some dcF := by
    rw [hviewF]
    exact List.getElem?_set_eq_of_lt _ hdlt
  have hpassF : (putInstance cx1 inst.view_id inst.draw_call_id buf').passes[view.pass_id]? =
      some { pass with paint_dirty := true } := by
    unfold putInstance
    rw [modifyDrawCall_passes, hcx1, modifyDrawCall_passes]
    exact setPaintDirty_passes_get cx view.pass_id pass hp
  have hshF : (putInstance cx1 inst.view_id inst.draw_call_id buf').shaders = cx.shaders := by
    unfold putInstance
    rw [modifyDrawCall_shaders, hcx1, modifyDrawCall_shaders, setPaintDirty_shaders]
  refine ⟨putInstance cx1 inst.view_id inst.draw_call_id buf', buf',
    hfinal, hlenb, hcontent, ?_, ?_, ?_, ?_, ?_⟩
  · simp only [instBuf, hvF, Option.bind_eq_bind, Option.some_bind, hdF]
    rfl
  · simp only [get_read_ref, hvF, Option.bind_eq_bind, Option.some_bind, hdF, hr]
    simp only [hshF, ne_eq, not_true_eq_false, if_false, hs,
      Option.some_bind]
    rfl
  · intro id' ty'
    simp only [get_instance_offset, hvF, Option.bind_eq_bind, Option.some_bind,
      hdF, hshF, hs, hv, hd]
  · simp only [paintDirtyFlag, hvF, Option.bind_eq_bind, Option.some_bind, hpassF]
    rfl
  · simp only [instDirtyFlag, hvF, Option.bind_eq_bind, Option.some_bind, hdF]
    rfl

end Area
end Makepad

namespace Makepad

theorem assocGet_nil {α β : Type} [DecidableEq α] (k : α) :
    assocGet ([] : List (α × β)) k = none := rfl

theorem assocGet_cons {α β : Type} [DecidableEq α] (p : α × β)
    (rest : List (α × β)) (k : α) :
    assocGet (p :: rest) k = if p.1 = k then some p.2 else assocGet rest k := by
  by_cases h : p.1 = k
  · simp [assocGet, List.find?_cons, h]
  · simp [assocGet, List.find?_cons, h]

theorem assocGet_replace_self {α β : Type} [DecidableEq α]
    (l : List (α × β)) (k : α) (v : β) (h : (assocGet l k).isSome) :
    assocGet (assocReplace l k v) k = some v := by
  induction l with
  | nil => simp [assocGet_nil] at h
  | cons p rest ih =>
      by_cases hpk : p.1 = k
      · simp [assocReplace, hpk, assocGet_cons]
      · rw [assocGet_cons, if_neg hpk] at h
        simp only [assocReplace, if_neg hpk]
        rw [assocGet_cons, if_neg hpk]
        exact ih h

theorem assocGet_replace_ne {α β : Type} [DecidableEq α]
    (l : List (α × β)) (k k' : α) (v : β) (hne : k' ≠ k) :
    assocGet (assocReplace l k v) k' = assocGet l k' := by
  induction l with
  | nil => rfl
  | cons p rest ih =>
      by_cases hpk : p.1 = k
      · have h1 : ¬ (k = k') := fun hh => hne hh.symm
        have h2 : ¬ (p.1 = k') := by rw [hpk]; exact h1
        simp only [assocReplace, if_pos hpk]
        rw [assocGet_cons, assocGet_cons, if_neg h1, if_neg h2]
      · simp only [assocReplace, if_neg hpk]
        simp only [assocGet_cons, ih]

theorem assocGet_append_single {α β : Type} [DecidableEq α]
    (l : List (α × β)) (k : α) (v : β) (h : assocGet l k = none) :
    assocGet (l ++ [(k, v)]) k = some v := by
  induction l with
  | nil => simp [assocGet_cons]
  | cons p rest ih =>
      rw [assocGet_cons] at h
      by_cases hpk : p.1 = k
      · rw [if_pos hpk] at h; exact absurd h (by simp)
      · rw [if_neg hpk] at h
        rw [List.cons_append, assocGet_cons, if_neg hpk]
        exact ih h

theorem assocGet_append_single_ne {α β : Type} [DecidableEq α]
    (l : List (α × β)) (k k' : α) (v : β) (hne : k' ≠ k) :
    assocGet (l ++ [(k, v)]) k' = assocGet l k' := by
  induction l with
  | nil =>
      rw [List.nil_append, assocGet_cons, if_neg (fun hh => hne hh.symm)]
  | cons p rest ih =>
      rw [List.cons_append]
      simp only [assocGet_cons, ih]

/-- assocSet establishes the binding it writes. -/
theorem assocGet_set_self {α β : Type} [DecidableEq α]
    (l : List (α × β)) (k : α) (v : β) :
    assocGet (assocSet l k v) k = some v := by
  unfold assocSet
  by_cases h : (assocGet l k).isSome
  · rw [if_pos h]
    exact assocGet_replace_self l k v h
  · rw [if_neg h]
    refine assocGet_append_single l k v ?_
    cases hg : assocGet l k with
    | none => rfl
    | some w => rw [hg] at h; simp at h

/-- assocSet leaves other keys' bindings unchanged. -/
theorem assocGet_set_ne {α β : Type} [DecidableEq α]
    (l : List (α × β)) (k k' : α) (v : β) (hne : k' ≠ k) :
    assocGet (assocSet l k v) k' = assocGet l k' := by
  unfold assocSet
  by_cases h : (assocGet l k).isSome
  · rw [if_pos h]
    exact assocGet_replace_ne l k k' v hne
  · rw [if_neg h]
    exact assocGet_append_single_ne l k k' v hne

/-- assocRemove erases the binding for its key. -/
theorem assocGet_remove_self {α β : Type} [DecidableEq α]
    (l : List (α × β)) (k : α) :
    assocGet (assocRemove l k) k = none := by
  have hf : List.find? (fun p => p.1 = k) (assocRemove l k) = none := by
    rw [List.find?_eq_none]
    intro p hp
    have := (List.mem_filter.mp hp).2
    simpa using this
  unfold assocGet
  rw [hf]
  rfl

end Makepad

namespace Makepad
namespace Area

/-- Claim C6: for a valid instance area spanning at least one instance and
a registered float property, write_float broadcasts the value into the
property's slot of every spanned instance (offset + inst_offset + i*slots)
and sets the owning pass's paint_dirty and the draw call's instance_dirty
flags. -/
theorem write_float_broadcasts_and_marks_dirty
    (inst : InstanceArea) (cx : Cx) (view : CxView) (dc : DrawCall)
    (sh : CxShader) (pass : CxPass) (id : LiveItemId) (io : Nat) (value : Val)
    (hv : cx.views[inst.view_id]? = some view)
    (hd : view.draw_calls[inst.draw_call_id]? = some dc)
    (hr : view.redraw_id = inst.redraw_id)
    (hs : cx.shaders[dc.shader_id]? = some sh)
    (hp : cx.passes[view.pass_id]? = some pass)
    (hoff : get_instance_offset (.Instance inst) cx id .float = some (some io))
    (hcount : 1 ≤ inst.instance_count)
    (hslots : io + 1 ≤ sh.mapping.instance_props.total_slots)
    (hlen : inst.instance_offset +
        inst.instance_count * sh.mapping.instance_props.total_slots ≤
        dc.instance_buf.length) :
    ∃ cx' buf',
      write_float (.Instance inst) cx id value = some cx' ∧
      instBuf cx' (.Instance inst) = some buf' ∧
      (∀ i, i < inst.instance_count →
        buf'[inst.instance_offset + io +
          i * sh.mapping.instance_props.total_slots]? = some value) ∧
      paintDirtyFlag cx' (.Instance inst) = some true ∧
      instDirtyFlag cx' (.Instance inst) = some true := by
  obtain ⟨cx', buf', h1, _, h3, h4, _, _, h7, h8⟩ :=
    writeProp_spec inst cx view dc sh pass id .float io [value] hv hd hr hs hp
      hoff (by simpa using hslots) hlen
  refine ⟨cx', buf', h1, h4, ?_, h7, h8⟩
  intro i hi
  have hx := h3 i 0 hi (by simp)
  simpa using hx

/-- Claim C7: for a valid instance area and a registered vec2 property,
write_vec2 stores the y component into the first reserved slot and the x
component into the second, for every spanned instance. -/
theorem write_vec2_stores_y_then_x
    (inst : InstanceArea) (cx : Cx) (view : CxView) (dc : DrawCall)
    (sh : CxShader) (pass : CxPass) (id : LiveItemId) (io : Nat) (v : Vec2)
    (hv : cx.views[inst.view_id]? = some view)
    (hd : view.draw_calls[inst.draw_call_id]? = some dc)
    (hr : view.redraw_id = inst.redraw_id)
    (hs : cx.shaders[dc.shader_id]? = some sh)
    (hp : cx.passes[view.pass_id]? = some pass)
    (hoff : get_instance_offset (.Instance inst) cx id .vec2 = some (some io))
    (hslots : io + 2 ≤ sh.mapping.instance_props.total_slots)
    (hlen : inst.instance_offset +
        inst.instance_count * sh.mapping.instance_props.total_slots ≤
        dc.instance_buf.length) :
    ∃ cx' buf',
      write_vec2 (.Instance inst) cx id v = some cx' ∧
      instBuf cx' (.Instance inst) = some buf' ∧
      (∀ i, i < inst.instance_count →
        buf'[inst.instance_offset + io +
          i * sh.mapping.instance_props.total_slots]? = some v.y ∧
        buf'[inst.instance_offset + io +
          i * sh.mapping.instance_props.total_slots + 1]? = some v.x) := by
  obtain ⟨cx', buf', h1, _, h3, h4, _, _, _, _⟩ :=
    writeProp_spec inst cx view dc sh pass id .vec2 io [v.y, v.x] hv hd hr hs hp
      hoff (by simpa using hslots) hlen
  refine ⟨cx', buf', h1, h4, ?_⟩
  intro i hi
  constructor
  · have hx := h3 i 0 hi (by simp)
    simpa using hx
  · have hx := h3 i 1 hi (by simp)
    simpa using hx

/-- Claim C10: for a valid instance area and a registered vec2 property,
a write_vec2 followed by read_vec2 swaps the components: the read returns
(v.y, v.x), because the write stores (y, x) while the read takes slot 0 as
x and slot 1 as y. -/
theorem write_vec2_read_vec2_swaps
    (inst : InstanceArea) (cx : Cx) (view : CxView) (dc : DrawCall)
    (sh : CxShader) (pass : CxPass) (id : LiveItemId) (io : Nat) (v : Vec2)
    (hv : cx.views[inst.view_id]? = some view)
    (hd : view.draw_calls[inst.draw_call_id]? = some dc)
    (hr : view.redraw_id = inst.redraw_id)
    (hs : cx.shaders[dc.shader_id]? = some sh)
    (hp : cx.passes[view.pass_id]? = some pass)
    (hoff : get_instance_offset (.Instance inst) cx id .vec2 = some (some io))
    (hcount : 1 ≤ inst.instance_count)
    (hslots : io + 2 ≤ sh.mapping.instance_props.total_slots)
    (hlen : inst.instance_offset +
        inst.instance_count * sh.mapping.instance_props.total_slots ≤
        dc.instance_buf.length) :
    ∃ cx',
      write_vec2 (.Instance inst) cx id v = some cx' ∧
      read_vec2 (.Instance inst) cx' id = some ⟨v.y, v.x⟩ := by
  obtain ⟨cx', buf', h1, _, h3, _, h5, h6, _, _⟩ :=
    writeProp_spec inst cx view dc sh pass id .vec2 io [v.y, v.x] hv hd hr hs hp
      hoff (by simpa using hslots) hlen
  refine ⟨cx', h1, ?_⟩
  have hoff' : get_instance_offset (.Instance inst) cx' id .vec2 =
      some (some io) := by rw [h6]; exact hoff
  have hy := h3 0 0 (by omega) (by simp)
  have hx := h3 0 1 (by omega) (by simp)
  simp only [Nat.zero_mul, Nat.add_zero] at hy hx
  simp only [read_vec2, hoff', Option.bind_eq_bind, Option.some_bind, h5]
  simp only [hy, hx, Option.some_bind]
  simp

end Area
end Makepad

namespace Makepad
namespace Area

/-- Claim C1 (counterexample): writing Vec3 (1, 2, 3) to the registered
vec3 property (slot offset 3) of the sample context stores 2 (the y
component) in the first reserved slot and 1 (the x component) in the
second — not natural (x, y, z) order. -/
theorem write_vec3_not_natural_order_cex :
    ((write_vec3 sampleArea sampleCx 3 ⟨1, 2, 3⟩).bind
      (fun c => instBuf c sampleArea)).bind (fun b => b[3]?) = some 2 ∧
    ((write_vec3 sampleArea sampleCx 3 ⟨1, 2, 3⟩).bind
      (fun c => instBuf c sampleArea)).bind (fun b => b[4]?) = some 1 ∧
    (Vec3.mk 1 2 3).x = 1 ∧ (Vec3.mk 1 2 3).y = 2 ∧ (2 : Val) ≠ 1 := by
  refine ⟨by decide, by decide, rfl, rfl, by decide⟩

/-- Claim C1 (amended): on a valid instance area, write_vec4 stores
(x, y, z, w) and write_color stores (r, g, b, a) into consecutive slots in
natural order for every spanned instance, but write_vec3 stores (y, x, z):
its first two components are swapped, matching the vec2 accessor rather
than natural order. -/
theorem write_vec3_vec4_color_slot_order
    (inst : InstanceArea) (cx : Cx) (view : CxView) (dc : DrawCall)
    (sh : CxShader) (pass : CxPass)
    (id3 id4 idc : LiveItemId) (io3 io4 ioc : Nat)
    (v3 : Vec3) (v4 : Vec4) (c : Color)
    (hv : cx.views[inst.view_id]? = some view)
    (hd : view.draw_calls[inst.draw_call_id]? = some dc)
    (hr : view.redraw_id = inst.redraw_id)
    (hs : cx.shaders[dc.shader_id]? = some sh)
    (hp : cx.passes[view.pass_id]? = some pass)
    (hoff3 : get_instance_offset (.Instance inst) cx id3 .vec3 = some (some io3))
    (hoff4 : get_instance_offset (.Instance inst) cx id4 .vec4 = some (some io4))
    (hoffc : get_instance_offset (.Instance inst) cx idc .vec4 = some (some ioc))
    (hslots3 : io3 + 3 ≤ sh.mapping.instance_props.total_slots)
    (hslots4 : io4 + 4 ≤ sh.mapping.instance_props.total_slots)
    (hslotsc : ioc + 4 ≤ sh.mapping.instance_props.total_slots)
    (hlen : inst.instance_offset +
        inst.instance_count * sh.mapping.instance_props.total_slots ≤
        dc.instance_buf.length) :
    (∃ cx' buf',
      write_vec3 (.Instance inst) cx id3 v3 = some cx' ∧
      instBuf cx' (.Instance inst) = some buf' ∧
      (∀ i, i < inst.instance_count →
        (buf'[inst.instance_offset + io3 +
          i * sh.mapping.instance_props.total_slots]? = some v3.y ∧
        buf'[inst.instance_offset + io3 +
          i * sh.mapping.instance_props.total_slots + 1]? = some v3.x ∧
        buf'[inst.instance_offset + io3 +
          i * sh.mapping.instance_props.total_slots + 2]? = some v3.z))) ∧
    (∃ cx' buf',
      write_vec4 (.Instance inst) cx id4 v4 = some cx' ∧
      instBuf cx' (.Instance inst) = some buf' ∧
      (∀ i, i < inst.instance_count →
        (buf'[inst.instance_offset + io4 +
          i * sh.mapping.instance_props.total_slots]? = some v4.x ∧
        buf'[inst.instance_offset + io4 +
          i * sh.mapping.instance_props.total_slots + 1]? = some v4.y ∧
        buf'[inst.instance_offset + io4 +
          i * sh.mapping.instance_props.total_slots + 2]? = some v4.z ∧
        buf'[inst.instance_offset + io4 +
          i * sh.mapping.instance_props.total_slots + 3]? = some v4.w))) ∧
    (∃ cx' buf',
      write_color (.Instance inst) cx idc c = some cx' ∧
      instBuf cx' (.Instance inst) = some buf' ∧
      (∀ i, i < inst.instance_count →
        (buf'[inst.instance_offset + ioc +
          i * sh.mapping.instance_props.total_slots]? = some c.r ∧
        buf'[inst.instance_offset + ioc +
          i * sh.mapping.instance_props.total_slots + 1]? = some c.g ∧
        buf'[inst.instance_offset + ioc +
          i * sh.mapping.instance_props.total_slots + 2]? = some c.b ∧
        buf'[inst.instance_offset + ioc +
          i * sh.mapping.instance_props.total_slots + 3]? = some c.a))) := by
  refine ⟨?_, ?_, ?_⟩
  · obtain ⟨cx', buf', h1, _, h3, h4, _, _, _, _⟩ :=
      writeProp_spec inst cx view dc sh pass id3 .vec3 io3 [v3.y, v3.x, v3.z]
        hv hd hr hs hp hoff3 (by simpa using hslots3) hlen
    refine ⟨cx', buf', h1, h4, ?_⟩
    intro i hi
    refine ⟨?_, ?_, ?_⟩
    · have hx := h3 i 0 hi (by simp)
      simpa using hx
    · have hx := h3 i 1 hi (by simp)
      simpa using hx
    · have hx := h3 i 2 hi (by simp)
      simpa using hx
  · obtain ⟨cx', buf', h1, _, h3, h4, _, _, _, _⟩ :=
      writeProp_spec inst cx view dc sh pass id4 .vec4 io4 [v4.x, v4.y, v4.z, v4.w]
        hv hd hr hs hp hoff4 (by simpa using hslots4) hlen
    refine ⟨cx', buf', h1, h4, ?_⟩
    intro i hi
    refine ⟨?_, ?_, ?_, ?_⟩
    · have hx := h3 i 0 hi (by simp)
      simpa using hx
    · have hx := h3 i 1 hi (by simp)
      simpa using hx
    · have hx := h3 i 2 hi (by simp)
      simpa using hx
    · have hx := h3 i 3 hi (by simp)
      simpa using hx
  · obtain ⟨cx', buf', h1, _, h3, h4, _, _, _, _⟩ :=
      writeProp_spec inst cx view dc sh pass idc .vec4 ioc [c.r, c.g, c.b, c.a]
        hv hd hr hs hp hoffc (by simpa using hslotsc) hlen
    refine ⟨cx', buf', h1, h4, ?_⟩
    intro i hi
    refine ⟨?_, ?_, ?_, ?_⟩
    · have hx := h3 i 0 hi (by simp)
      simpa using hx
    · have hx := h3 i 1 hi (by simp)
      simpa using hx
    · have hx := h3 i 2 hi (by simp)
      simpa using hx
    · have hx := h3 i 3 hi (by simp)
      simpa using hx

end Area
end Makepad

namespace Makepad
namespace Area

/-- Offset resolution never panics when the indices are in bounds and the
shader's prop_map points into its props table (it does not consult the
generation). -/
theorem gio_no_panic
    (inst : InstanceArea) (cx : Cx) (view : CxView) (dc : DrawCall)
    (sh : CxShader) (id : LiveItemId) (ty : Ty)
    (hv : cx.views[inst.view_id]? = some view)
    (hd : view.draw_calls[inst.draw_call_id]? = some dc)
    (hs : cx.shaders[dc.shader_id]? = some sh)
    (hwf : ∀ p ∈ sh.mapping.instance_props.prop_map,
      p.2 < sh.mapping.instance_props.props.length) :
    ∃ r, get_instance_offset (.Instance inst) cx id ty = some r := by
  cases hpm : propMapGet sh.mapping.instance_props.prop_map id with
  | none =>
      exact ⟨none, by simp [get_instance_offset, hv, hd, hs, hpm]⟩
  | some pid =>
      have hmem : ∃ p, p ∈ sh.mapping.instance_props.prop_map ∧
          p.1 = id ∧ p.2 = pid := by
        unfold propMapGet assocGet at hpm
        cases hf : List.find? (fun p => p.1 = id)
            sh.mapping.instance_props.prop_map with
        | none => rw [hf] at hpm; simp at hpm
        | some p =>
            rw [hf] at hpm
            simp only [Option.map] at hpm
            refine ⟨p, List.mem_of_find?_eq_some hf, ?_, by simpa using hpm⟩
            have := List.find?_some hf
            simpa using this
      obtain ⟨p, hpmem, _, hp2⟩ := hmem
      have hlt : pid < sh.mapping.instance_props.props.length := by
        rw [← hp2]; exact hwf p hpmem
      have hprop : sh.mapping.instance_props.props[pid]? =
          some (sh.mapping.instance_props.props[pid]) :=
        List.getElem?_eq_getElem hlt
      by_cases hty : (sh.mapping.instance_props.props[pid]).ty ≠ ty
      · exact ⟨none, by
          simp [get_instance_offset, hv, hd, hs, hpm, hprop, hty]⟩
      · exact ⟨some (sh.mapping.instance_props.props[pid]).offset, by
          simp [get_instance_offset, hv, hd, hs, hpm, hprop, hty]⟩

/-- On a generation mismatch get_read_ref yields no buffer (after having
looked the view and draw call up). -/
theorem get_read_ref_stale
    (inst : InstanceArea) (cx : Cx) (view : CxView) (dc : DrawCall)
    (hv : cx.views[inst.view_id]? = some view)
    (hd : view.draw_calls[inst.draw_call_id]? = some dc)
    (hstale : view.redraw_id ≠ inst.redraw_id) :
    get_read_ref (.Instance inst) cx = some none := by
  simp [get_read_ref, hv, hd, hstale]

/-- On a generation mismatch get_write_ref yields no buffer and performs
no mutation. -/
theorem get_write_ref_stale
    (inst : InstanceArea) (cx : Cx) (view : CxView) (dc : DrawCall)
    (hv : cx.views[inst.view_id]? = some view)
    (hd : view.draw_calls[inst.draw_call_id]? = some dc)
    (hstale : view.redraw_id ≠ inst.redraw_id) :
    get_write_ref (.Instance inst) cx = some none := by
  simp [get_write_ref, hv, hd, hstale]

/-- Any typed write on a stale handle returns the context unchanged. -/
theorem writeProp_stale (inst : InstanceArea) (cx : Cx) (id : LiveItemId)
    (ty : Ty) (comps : List Val)
    (hgio : ∃ r, get_instance_offset (.Instance inst) cx id ty = some r)
    (hwr : get_write_ref (.Instance inst) cx = some none) :
    writeProp (.Instance inst) cx id ty comps = some cx := by
  obtain ⟨r, hr0⟩ := hgio
  cases r <;> simp [writeProp, hr0, hwr]

/-- Claim C3: when the stored generation differs from the view's current
redraw_id (indices in bounds, well-formed prop table), every typed read
returns the kind's default, every typed write leaves the context — in
particular the instance buffer — unchanged, and no operation panics (all
results are `some`). -/
theorem stale_area_reads_default_writes_noop
    (inst : InstanceArea) (cx : Cx) (view : CxView) (dc : DrawCall)
    (sh : CxShader) (id : LiveItemId) (v : Val) (v2 : Vec2) (v3 : Vec3)
    (v4 : Vec4) (col : Color) (m : Mat4)
    (hv : cx.views[inst.view_id]? = some view)
    (hd : view.draw_calls[inst.draw_call_id]? = some dc)
    (hs : cx.shaders[dc.shader_id]? = some sh)
    (hwf : ∀ p ∈ sh.mapping.instance_props.prop_map,
      p.2 < sh.mapping.instance_props.props.length)
    (hstale : view.redraw_id ≠ inst.redraw_id) :
    read_float (.Instance inst) cx id = some 0 ∧
    read_vec2 (.Instance inst) cx id = some Vec2.default ∧
    read_vec3 (.Instance inst) cx id = some Vec3.default ∧
    read_vec4 (.Instance inst) cx id = some Vec4.default ∧
    read_color (.Instance inst) cx id = some Color.default ∧
    read_mat4 (.Instance inst) cx id = some Mat4.default ∧
    write_float (.Instance inst) cx id v = some cx ∧
    write_vec2 (.Instance inst) cx id v2 = some cx ∧
    write_vec3 (.Instance inst) cx id v3 = some cx ∧
    write_vec4 (.Instance inst) cx id v4 = some cx ∧
    write_color (.Instance inst) cx id col = some cx ∧
    write_mat4 (.Instance inst) cx id m = some cx := by
  have hrr := get_read_ref_stale inst cx view dc hv hd hstale
  have hwr := get_write_ref_stale inst cx view dc hv hd hstale
  have hg : ∀ ty, ∃ r, get_instance_offset (.Instance inst) cx id ty = some r :=
    fun ty => gio_no_panic inst cx view dc sh id ty hv hd hs hwf
  refine ⟨?_, ?_, ?_, ?_, ?_, ?_, ?_, ?_, ?_, ?_, ?_, ?_⟩
  · obtain ⟨r, hr0⟩ := hg .float
    cases r <;> simp [read_float, hr0, hrr]
  · obtain ⟨r, hr0⟩ := hg .vec2
    cases r <;> simp [read_vec2, hr0, hrr]
  · obtain ⟨r, hr0⟩ := hg .vec3
    cases r <;> simp [read_vec3, hr0, hrr]
  · obtain ⟨r, hr0⟩ := hg .vec4
    cases r <;> simp [read_vec4, hr0, hrr]
  · obtain ⟨r, hr0⟩ := hg .vec4
    cases r <;> simp [read_color, hr0, hrr]
  · obtain ⟨r, hr0⟩ := hg .mat4
    cases r <;> simp [read_mat4, hr0, hrr]
  · exact writeProp_stale inst cx id .float [v] (hg .float) hwr
  · exact writeProp_stale inst cx id .vec2 [v2.y, v2.x] (hg .vec2) hwr
  · exact writeProp_stale inst cx id .vec3 [v3.y, v3.x, v3.z] (hg .vec3) hwr
  · exact writeProp_stale inst cx id .vec4 [v4.x, v4.y, v4.z, v4.w] (hg .vec4) hwr
  · exact writeProp_stale inst cx id .vec4 [col.r, col.g, col.b, col.a] (hg .vec4) hwr
  · obtain ⟨r, hr0⟩ := hg .mat4
    cases r <;> simp [write_mat4, hr0, hwr]

end Area
end Makepad

namespace Makepad
namespace Animator

/-- Claim C9: with no current Anim, update_anim_track removes the Area's
registry entry and reports no active time; afterwards the registry holds
no entry for that Area. -/
theorem update_no_current_removes_entry (a : Animator) (cx : Cx) (t : ℚ)
    (hc : a.current = none) :
    update_anim_track a cx t =
      (a, { cx with playing_anim_areas := assocRemove cx.playing_anim_areas a.area }, none) ∧
    assocGet (assocRemove cx.playing_anim_areas a.area) a.area = none := by
  constructor
  · unfold update_anim_track
    rw [hc]
  · exact assocGet_remove_self cx.playing_anim_areas a.area

/-- Claim C5: a terminal current Anim cannot be replaced: play_anim with
any other Anim keeps current, next, the value cache and the whole context
(including the registry entry) unchanged. -/
theorem play_anim_terminal_noop (a : Animator) (cx : Cx) (T anim : Anim)
    (hcur : a.current = some T) (hterm : T.play.term = true) :
    ∃ a', play_anim a cx anim = some (a', cx) ∧
      a'.current = some T ∧ a'.next = a.next ∧
      a'.last_values = a.last_values := by
  refine ⟨{ a with live_update_id := cx.live_update_id }, ?_, hcur, rfl, rfl⟩
  unfold play_anim term_anim_playing
  simp only [hcur, hterm, if_true]

end Animator
end Makepad

namespace Makepad
namespace Animator

/-- Tracks whose bind ids all differ from `b` leave the cache entry for
`b` untouched. -/
theorem foldl_set_last_preserve (tracks : List Track)
    (lv : List (LiveItemId × AnimLastValue)) (b : LiveItemId)
    (h : ∀ t ∈ tracks, t.bind_id ≠ b) :
    assocGet (tracks.foldl (fun l t => assocSet l t.bind_id t.last_value) lv) b =
      assocGet lv b := by
  induction tracks generalizing lv with
  | nil => rfl
  | cons t ts ih =>
      rw [List.foldl_cons]
      rw [ih _ (fun t' ht' => h t' (List.mem_cons_of_mem t ht'))]
      exact assocGet_set_ne lv t.bind_id b t.last_value
        (fun hh => h t (List.mem_cons_self t ts) hh.symm)

/-- With pairwise-distinct bind ids, the snapshot fold stores each track's
trailing value under its own bind id. -/
theorem foldl_set_last_get (tracks : List Track)
    (lv : List (LiveItemId × AnimLastValue)) (tr : Track)
    (htr : tr ∈ tracks)
    (hnd : (tracks.map Track.bind_id).Pairwise (· ≠ ·)) :
    assocGet (tracks.foldl (fun l t => assocSet l t.bind_id t.last_value) lv)
      tr.bind_id = some tr.last_value := by
  induction tracks generalizing lv with
  | nil => cases htr
  | cons t ts ih =>
      rw [List.map_cons, List.pairwise_cons] at hnd
      rcases List.mem_cons.mp htr with heq | hmem
      · subst heq
        rw [List.foldl_cons]
        rw [foldl_set_last_preserve ts _ tr.bind_id
          (fun t' ht' => fun hh => hnd.1 t'.bind_id
            (List.mem_map_of_mem Track.bind_id ht') hh.symm)]
        exact assocGet_set_self lv tr.bind_id tr.last_value
      · rw [List.foldl_cons]
        exact ih _ hmem hnd.2

/-- Claim C8: after end() with a current Anim whose tracks bind pairwise
distinct ids, current becomes empty and, for every track with a non-empty
key list, the typed cache read returns exactly that track's final key
value, regardless of what was cached before. -/
theorem end_snapshots_final_key_values (a : Animator) (anim : Anim)
    (tr : Track) (hcur : a.current = some anim)
    (hnd : (anim.tracks.map Track.bind_id).Pairwise (· ≠ ·))
    (htr : tr ∈ anim.tracks) :
    (end_current a).current = none ∧
    Track.final_key_cached (end_current a).last_values tr := by
  have hend : end_current a =
      set_anim_as_last_values { a with current := none } anim := by
    unfold end_current
    rw [hcur]
  have hget : assocGet (end_current a).last_values tr.bind_id =
      some tr.last_value := by
    rw [hend]
    unfold set_anim_as_last_values
    exact foldl_set_last_get anim.tracks a.last_values tr htr hnd
  constructor
  · rw [hend]; rfl
  · cases tr with
    | Float b keys ci e =>
        intro k hk
        simp only [Track.bind_id] at hget
        simp only [_last_float, hget, Track.last_value, hk]
    | Vec2 b keys ci e =>
        intro k hk
        simp only [Track.bind_id] at hget
        simp only [_last_vec2, hget, Track.last_value, hk]
    | Vec3 b keys ci e =>
        intro k hk
        simp only [Track.bind_id] at hget
        simp only [_last_vec3, hget, Track.last_value, hk]
    | Vec4 b keys ci e =>
        intro k hk
        simp only [Track.bind_id] at hget
        simp only [_last_vec4, hget, Track.last_value, hk]
    | Color b keys ci e =>
        intro k hk
        simp only [Track.bind_id] at hget
        simp only [_last_color, hget, Track.last_value, hk]

end Animator
end Makepad

namespace Makepad
namespace Animator

/-- Advancing the clock never touches the value cache. -/
theorem update_anim_track_last_values (a : Animator) (cx : Cx) (t : ℚ) :
    (update_anim_track a cx t).1.last_values = a.last_values := by
  unfold update_anim_track
  cases a.current with
  | none => rfl
  | some cur =>
      cases assocGet cx.playing_anim_areas a.area with
      | none => rfl
      | some info0 =>
          dsimp only
          split
          · rfl
          · cases a.next with
            | none => rfl
            | some nxt =>
                dsimp only
                split
                · rfl
                · rfl

theorem last_float_set_self (b : LiveItemId) (v : Val)
    (lv : List (LiveItemId × AnimLastValue)) :
    _last_float b (_set_last_float b v lv) = v := by
  unfold _last_float _set_last_float
  rw [assocGet_set_self]

theorem last_vec2_set_self (b : LiveItemId) (v : Vec2)
    (lv : List (LiveItemId × AnimLastValue)) :
    _last_vec2 b (_set_last_vec2 b v lv) = v := by
  unfold _last_vec2 _set_last_vec2
  rw [assocGet_set_self]

theorem last_vec3_set_self (b : LiveItemId) (v : Vec3)
    (lv : List (LiveItemId × AnimLastValue)) :
    _last_vec3 b (_set_last_vec3 b v lv) = v := by
  unfold _last_vec3 _set_last_vec3
  rw [assocGet_set_self]

theorem last_vec4_set_self (b : LiveItemId) (v : Vec4)
    (lv : List (LiveItemId × AnimLastValue)) :
    _last_vec4 b (_set_last_vec4 b v lv) = v := by
  unfold _last_vec4 _set_last_vec4
  rw [assocGet_set_self]

/-- Claim C2 (amended): in the fallback case — no active local time, or no
track bound to the identity in the (possibly just promoted) current Anim —
calc_float/vec2/vec3/vec4 return the cached last value and leave the
typed cache reading for that identity unchanged; calc_color however
returns Color.default in the fallback case (its cache is untouched). -/
theorem calc_fallback_behavior (a : Animator) (cx : Cx)
    (bind_id : LiveItemId) (t : ℚ)
    (hfb : (a.update_anim_track cx t).2.2 = none ∨
      (a.update_anim_track cx t).1.find_track_index bind_id = some none) :
    (∃ a2 cx2, calc_float a cx bind_id t =
        some (a2, cx2, _last_float bind_id a.last_values) ∧
      _last_float bind_id a2.last_values =
        _last_float bind_id a.last_values) ∧
    (∃ a2 cx2, calc_vec2 a cx bind_id t =
        some (a2, cx2, _last_vec2 bind_id a.last_values) ∧
      _last_vec2 bind_id a2.last_values =
        _last_vec2 bind_id a.last_values) ∧
    (∃ a2 cx2, calc_vec3 a cx bind_id t =
        some (a2, cx2, _last_vec3 bind_id a.last_values) ∧
      _last_vec3 bind_id a2.last_values =
        _last_vec3 bind_id a.last_values) ∧
    (∃ a2 cx2, calc_vec4 a cx bind_id t =
        some (a2, cx2, _last_vec4 bind_id a.last_values) ∧
      _last_vec4 bind_id a2.last_values =
        _last_vec4 bind_id a.last_values) ∧
    (∃ a2 cx2, calc_color a cx bind_id t = some (a2, cx2, Color.default) ∧
      a2.last_values = a.last_values) := by
  rcases hu : a.update_anim_track cx t with ⟨a1, cx1, r⟩
  have hlv : a1.last_values = a.last_values := by
    have := update_anim_track_last_values a cx t
    rw [hu] at this
    exact this
  rw [hu] at hfb
  simp only at hfb
  cases r with
  | none =>
      refine
        ⟨⟨{ a1 with last_values := _set_last_float bind_id (_last_float bind_id a.last_values) a1.last_values }, cx1, ?_, ?_⟩,
         ⟨{ a1 with last_values := _set_last_vec2 bind_id (_last_vec2 bind_id a.last_values) a1.last_values }, cx1, ?_, ?_⟩,
         ⟨{ a1 with last_values := _set_last_vec3 bind_id (_last_vec3 bind_id a.last_values) a1.last_values }, cx1, ?_, ?_⟩,
         ⟨{ a1 with last_values := _set_last_vec4 bind_id (_last_vec4 bind_id a.last_values) a1.last_values }, cx1, ?_, ?_⟩,
         ⟨a1, cx1, ?_, hlv⟩⟩
      · simp only [calc_float, hu]
      · simp only [last_float_set_self]
      · simp only [calc_vec2, hu]
      · simp only [last_vec2_set_self]
      · simp only [calc_vec3, hu]
      · simp only [last_vec3_set_self]
      · simp only [calc_vec4, hu]
      · simp only [last_vec4_set_self]
      · simp only [calc_color, hu]
  | some tt =>
      have hfind : a1.find_track_index bind_id = some none := by
        rcases hfb with h | h
        · exact absurd h (by simp)
        · exact h
      refine
        ⟨⟨{ a1 with last_values := _set_last_float bind_id (_last_float bind_id a.last_values) a1.last_values }, cx1, ?_, ?_⟩,
         ⟨{ a1 with last_values := _set_last_vec2 bind_id (_last_vec2 bind_id a.last_values) a1.last_values }, cx1, ?_, ?_⟩,
         ⟨{ a1 with last_values := _set_last_vec3 bind_id (_last_vec3 bind_id a.last_values) a1.last_values }, cx1, ?_, ?_⟩,
         ⟨{ a1 with last_values := _set_last_vec4 bind_id (_last_vec4 bind_id a.last_values) a1.last_values }, cx1, ?_, ?_⟩,
         ⟨a1, cx1, ?_, hlv⟩⟩
      · simp only [calc_float, hu, hfind, Option.bind_eq_bind,
          Option.some_bind]
        rfl
      · simp only [last_float_set_self]
      · simp only [calc_vec2, hu, hfind, Option.bind_eq_bind,
          Option.some_bind]
        rfl
      · simp only [last_vec2_set_self]
      · simp only [calc_vec3, hu, hfind, Option.bind_eq_bind,
          Option.some_bind]
        rfl
      · simp only [last_vec3_set_self]
      · simp only [calc_vec4, hu, hfind, Option.bind_eq_bind,
          Option.some_bind]
        rfl
      · simp only [last_vec4_set_self]
      · simp only [calc_color, hu, hfind, Option.bind_eq_bind,
          Option.some_bind]
        rfl

end Animator
end Makepad

namespace Makepad

/-- Validity only reads the views, never the registry. -/
theorem is_valid_reg_invariant (a : Area) (cx : Cx)
    (r : List (Area × AnimInfo)) :
    Area.is_valid a { cx with playing_anim_areas := r } = Area.is_valid a cx := by
  cases a <;> rfl

namespace Animator

/-- Claim C4: playing A with Cut on a valid area then B with Chain while A
is current leaves the registry entry with total_time = A.duration +
B.duration; stamping at t0 and updating at `now` with now - t0 ≥
A.duration promotes B to current, advances start_time by exactly
A.duration and shrinks total_time by exactly A.duration. -/
theorem play_cut_chain_promotes (a0 : Animator) (cx0 : Cx) (A B : Anim)
    (t0 now : ℚ)
    (hterm0 : a0.current = none ∨
      ∃ C, a0.current = some C ∧ C.play.term = false)
    (hvalid : Area.is_valid a0.area cx0 = some true)
    (hAcut : A.play.cut = true)
    (hAterm : A.play.term = false)
    (hBcut : B.play.cut = false)
    (hdurpos : 0 < A.play.duration)
    (helapsed : A.play.duration ≤ now - t0) :
    ∃ a1 c1 a2 c2 a3 c3 r3 a4 c4 r4,
      play_anim a0 cx0 A = some (a1, c1) ∧
      assocGet c1.playing_anim_areas a0.area =
        some ⟨none, A.play.duration⟩ ∧
      play_anim a1 c1 B = some (a2, c2) ∧
      assocGet c2.playing_anim_areas a0.area =
        some ⟨none, A.play.duration + B.play.duration⟩ ∧
      update_anim_track a2 c2 t0 = (a3, c3, r3) ∧ r3.isSome ∧
      a3.current = some A ∧
      assocGet c3.playing_anim_areas a0.area =
        some ⟨some t0, A.play.duration + B.play.duration⟩ ∧
      update_anim_track a3 c3 now = (a4, c4, r4) ∧ r4.isSome ∧
      a4.current = some B ∧ a4.next = none ∧
      assocGet c4.playing_anim_areas a0.area =
        some ⟨some (t0 + A.play.duration), B.play.duration⟩ := by
  have hne : a0.area ≠ Area.Empty := by
    intro h
    rw [h] at hvalid
    simp [Area.is_valid] at hvalid
  set a1 : Animator := { a0 with live_update_id := cx0.live_update_id, current := some A, next := none } with ha1
  set c1 : Cx := { cx0 with playing_anim_areas := assocSet cx0.playing_anim_areas a0.area ⟨none, A.play.total_time⟩ } with hc1
  have h1 : play_anim a0 cx0 A = some (a1, c1) := by
    unfold play_anim term_anim_playing
    rcases hterm0 with hcur0 | ⟨C, hcur0, hCterm⟩ <;>
      [simp only [hcur0]; simp only [hcur0, hCterm]] <;>
      simp only [Bool.false_eq_true, if_false, hvalid, Option.bind_eq_bind,
        Option.some_bind] <;>
      cases hreg : assocGet cx0.playing_anim_areas a0.area <;>
      simp [hAcut, hne, hcur0, ha1, hc1]
  set a2 : Animator := { a0 with live_update_id := cx0.live_update_id, current := some A, next := some B } with ha2
  set c2 : Cx := { c1 with playing_anim_areas := assocSet c1.playing_anim_areas a0.area ⟨none, A.play.total_time + B.play.total_time⟩ } with hc2
  have hg1 : assocGet c1.playing_anim_areas a0.area =
      some ⟨none, A.play.total_time⟩ := by
    rw [hc1]
    exact assocGet_set_self cx0.playing_anim_areas a0.area _
  have hv1 : Area.is_valid a0.area c1 = some true := by
    rw [hc1]
    rw [is_valid_reg_invariant]
    exact hvalid
  have h2 : play_anim a1 c1 B = some (a2, c2) := by
    unfold play_anim term_anim_playing
    simp only [ha1, hAterm, Bool.false_eq_true, if_false, hv1,
      Option.bind_eq_bind, Option.some_bind]
    simp only [← ha1, hg1]
    simp [hBcut, ha1, ha2, hc2]
  have hg2 : assocGet c2.playing_anim_areas a0.area =
      some ⟨none, A.play.total_time + B.play.total_time⟩ := by
    rw [hc2]
    exact assocGet_set_self c1.playing_anim_areas a0.area _
  set c3 : Cx := { c2 with playing_anim_areas := assocSet c2.playing_anim_areas a0.area ⟨some t0, A.play.total_time + B.play.total_time⟩ } with hc3
  have hnotle : ¬ (A.play.total_time ≤ t0 - t0) := by
    simp only [Play.total_time]
    intro h
    simp only [sub_self] at h
    linarith
  have h3 : update_anim_track a2 c2 t0 =
      (a2, c3, some (A.play.compute_time (t0 - t0))) := by
    unfold update_anim_track
    have hpos : 0 < A.play.total_time := hdurpos
    simp only [ha2, hg2]
    simp only [← ha2]
    simp [hg2, hnotle, hpos, ha2, hc2, hc3]
  have hg3 : assocGet c3.playing_anim_areas a0.area =
      some ⟨some t0, A.play.total_time + B.play.total_time⟩ := by
    rw [hc3]
    exact assocGet_set_self c2.playing_anim_areas a0.area _
  set a4 : Animator := { a2 with current := some B, next := none } with ha4
  set c4 : Cx := { c3 with playing_anim_areas := assocSet c3.playing_anim_areas a0.area ⟨some (t0 + A.play.total_time), A.play.total_time + B.play.total_time - A.play.total_time⟩ } with hc4
  have hle : A.play.total_time ≤ now - t0 := helapsed
  have h4 : update_anim_track a2 c3 now =
      (a4, c4, some (B.play.compute_time (now - (t0 + A.play.total_time)))) := by
    unfold update_anim_track
    simp only [ha2, hg3]
    simp only [← ha2]
    simp [hg3, hle, ha2, ha4, hc3, hc4]
  have htt : A.play.total_time = A.play.duration := rfl
  have hbt : B.play.total_time = B.play.duration := rfl
  refine ⟨a1, c1, a2, c2, a2, c3, some (A.play.compute_time (t0 - t0)),
    a4, c4, some (B.play.compute_time (now - (t0 + A.play.total_time))),
    h1, by rw [hg1, htt], h2, by rw [hg2, htt, hbt], h3, by simp,
    rfl, by rw [hg3, htt, hbt], h4, by simp, rfl, rfl, ?_⟩
  rw [hc4]
  rw [assocGet_set_self c3.playing_anim_areas a0.area _]
  rw [htt, hbt]
  congr 1
  ring_nf

end Animator
end Makepad

namespace Makepad

/-- Claim C2 (counterexample): with no current Anim but a cached color
(1,1,1,1) under id 7, calc_color returns Color.default — not the cached
last value — refuting the uniform fallback claim for the color kind. -/
theorem calc_color_fallback_not_cached_cex :
    (Animator.calc_color cachedAnimator sampleCx 7 0).map
      (fun x => x.2.2) = some Color.default ∧
    Animator._last_color 7 cachedAnimator.last_values = Color.mk 1 1 1 1 ∧
    Color.default ≠ Color.mk 1 1 1 1 := by
  refine ⟨by decide, by decide, by decide⟩

theorem write_float_broadcasts_and_marks_dirty_witness :
    ∃ cx' buf',
      Area.write_float (.Instance ⟨0, 0, 0, 2, 5⟩) sampleCx 1 7 = some cx' ∧
      Area.instBuf cx' (.Instance ⟨0, 0, 0, 2, 5⟩) = some buf' ∧
      (∀ i, i < 2 → buf'[0 + 0 + i * 10]? = some 7) ∧
      Area.paintDirtyFlag cx' (.Instance ⟨0, 0, 0, 2, 5⟩) = some true ∧
      Area.instDirtyFlag cx' (.Instance ⟨0, 0, 0, 2, 5⟩) = some true :=
  Area.write_float_broadcasts_and_marks_dirty ⟨0, 0, 0, 2, 5⟩ sampleCx
    sampleView sampleDrawCall sampleShader ⟨false⟩ 1 0 7
    rfl rfl rfl rfl rfl (by decide) (by decide) (by decide) (by decide)

theorem write_vec2_stores_y_then_x_witness :
    ∃ cx' buf',
      Area.write_vec2 (.Instance ⟨0, 0, 0, 2, 5⟩) sampleCx 2 ⟨7, 8⟩ = some cx' ∧
      Area.instBuf cx' (.Instance ⟨0, 0, 0, 2, 5⟩) = some buf' ∧
      (∀ i, i < 2 →
        buf'[0 + 1 + i * 10]? = some 8 ∧ buf'[0 + 1 + i * 10 + 1]? = some 7) :=
  Area.write_vec2_stores_y_then_x ⟨0, 0, 0, 2, 5⟩ sampleCx
    sampleView sampleDrawCall sampleShader ⟨false⟩ 2 1 ⟨7, 8⟩
    rfl rfl rfl rfl rfl (by decide) (by decide) (by decide)

theorem write_vec2_read_vec2_swaps_witness :
    ∃ cx',
      Area.write_vec2 (.Instance ⟨0, 0, 0, 2, 5⟩) sampleCx 2 ⟨7, 8⟩ = some cx' ∧
      Area.read_vec2 (.Instance ⟨0, 0, 0, 2, 5⟩) cx' 2 = some ⟨8, 7⟩ :=
  Area.write_vec2_read_vec2_swaps ⟨0, 0, 0, 2, 5⟩ sampleCx
    sampleView sampleDrawCall sampleShader ⟨false⟩ 2 1 ⟨7, 8⟩
    rfl rfl rfl rfl rfl (by decide) (by decide) (by decide) (by decide)

theorem write_vec3_vec4_color_slot_order_witness :
    (∃ cx' buf',
      Area.write_vec3 (.Instance ⟨0, 0, 0, 2, 5⟩) sampleCx 3 ⟨1, 2, 3⟩ = some cx' ∧
      Area.instBuf cx' (.Instance ⟨0, 0, 0, 2, 5⟩) = some buf' ∧
      (∀ i, i < 2 →
        (buf'[0 + 3 + i * 10]? = some 2 ∧
        buf'[0 + 3 + i * 10 + 1]? = some 1 ∧
        buf'[0 + 3 + i * 10 + 2]? = some 3))) ∧
    (∃ cx' buf',
      Area.write_vec4 (.Instance ⟨0, 0, 0, 2, 5⟩) sampleCx 4 ⟨1, 2, 3, 4⟩ = some cx' ∧
      Area.instBuf cx' (.Instance ⟨0, 0, 0, 2, 5⟩) = some buf' ∧
      (∀ i, i < 2 →
        (buf'[0 + 6 + i * 10]? = some 1 ∧
        buf'[0 + 6 + i * 10 + 1]? = some 2 ∧
        buf'[0 + 6 + i * 10 + 2]? = some 3 ∧
        buf'[0 + 6 + i * 10 + 3]? = some 4))) ∧
    (∃ cx' buf',
      Area.write_color (.Instance ⟨0, 0, 0, 2, 5⟩) sampleCx 4 ⟨1, 2, 3, 4⟩ = some cx' ∧
      Area.instBuf cx' (.Instance ⟨0, 0, 0, 2, 5⟩) = some buf' ∧
      (∀ i, i < 2 →
        (buf'[0 + 6 + i * 10]? = some 1 ∧
        buf'[0 + 6 + i * 10 + 1]? = some 2 ∧
        buf'[0 + 6 + i * 10 + 2]? = some 3 ∧
        buf'[0 + 6 + i * 10 + 3]? = some 4))) :=
  Area.write_vec3_vec4_color_slot_order ⟨0, 0, 0, 2, 5⟩ sampleCx
    sampleView sampleDrawCall sampleShader ⟨false⟩ 3 4 4 3 6 6
    ⟨1, 2, 3⟩ ⟨1, 2, 3, 4⟩ ⟨1, 2, 3, 4⟩
    rfl rfl rfl rfl rfl (by decide) (by decide) (by decide)
    (by decide) (by decide) (by decide) (by decide)

theorem stale_area_reads_default_writes_noop_witness :
    Area.read_float (.Instance ⟨0, 0, 0, 2, 4⟩) sampleCx 1 = some 0 ∧
    Area.read_vec2 (.Instance ⟨0, 0, 0, 2, 4⟩) sampleCx 1 = some Vec2.default ∧
    Area.read_vec3 (.Instance ⟨0, 0, 0, 2, 4⟩) sampleCx 1 = some Vec3.default ∧
    Area.read_vec4 (.Instance ⟨0, 0, 0, 2, 4⟩) sampleCx 1 = some Vec4.default ∧
    Area.read_color (.Instance ⟨0, 0, 0, 2, 4⟩) sampleCx 1 = some Color.default ∧
    Area.read_mat4 (.Instance ⟨0, 0, 0, 2, 4⟩) sampleCx 1 = some Mat4.default ∧
    Area.write_float (.Instance ⟨0, 0, 0, 2, 4⟩) sampleCx 1 7 = some sampleCx ∧
    Area.write_vec2 (.Instance ⟨0, 0, 0, 2, 4⟩) sampleCx 1 ⟨1, 2⟩ = some sampleCx ∧
    Area.write_vec3 (.Instance ⟨0, 0, 0, 2, 4⟩) sampleCx 1 ⟨1, 2, 3⟩ = some sampleCx ∧
    Area.write_vec4 (.Instance ⟨0, 0, 0, 2, 4⟩) sampleCx 1 ⟨1, 2, 3, 4⟩ = some sampleCx ∧
    Area.write_color (.Instance ⟨0, 0, 0, 2, 4⟩) sampleCx 1 ⟨1, 2, 3, 4⟩ = some sampleCx ∧
    Area.write_mat4 (.Instance ⟨0, 0, 0, 2, 4⟩) sampleCx 1 Mat4.default = some sampleCx :=
  Area.stale_area_reads_default_writes_noop ⟨0, 0, 0, 2, 4⟩ sampleCx
    sampleView sampleDrawCall sampleShader 1 7 ⟨1, 2⟩ ⟨1, 2, 3⟩ ⟨1, 2, 3, 4⟩
    ⟨1, 2, 3, 4⟩ Mat4.default rfl rfl rfl (by decide) (by decide)

theorem update_no_current_removes_entry_witness :
    Animator.update_anim_track idleAnimator sampleCx 0 =
      (idleAnimator, { sampleCx with playing_anim_areas := assocRemove sampleCx.playing_anim_areas idleAnimator.area }, none) ∧
    assocGet (assocRemove sampleCx.playing_anim_areas idleAnimator.area)
      idleAnimator.area = none :=
  Animator.update_no_current_removes_entry idleAnimator sampleCx 0 rfl

theorem play_anim_terminal_noop_witness :
    ∃ a', Animator.play_anim termAnimator sampleCx animA = some (a', sampleCx) ∧
      a'.current = some termAnim ∧ a'.next = none ∧ a'.last_values = [] :=
  Animator.play_anim_terminal_noop termAnimator sampleCx termAnim animA rfl rfl

theorem end_snapshots_final_key_values_witness :
    (Animator.end_current trackAnimator).current = none ∧
    Track.final_key_cached (Animator.end_current trackAnimator).last_values
      sampleTrack :=
  Animator.end_snapshots_final_key_values trackAnimator animT sampleTrack
    rfl (by decide) (List.mem_cons_self sampleTrack [])

theorem calc_fallback_behavior_witness :
    (∃ a2 cx2, Animator.calc_float cachedAnimator sampleCx 8 0 =
        some (a2, cx2, Animator._last_float 8 cachedAnimator.last_values) ∧
      Animator._last_float 8 a2.last_values =
        Animator._last_float 8 cachedAnimator.last_values) ∧
    (∃ a2 cx2, Animator.calc_vec2 cachedAnimator sampleCx 8 0 =
        some (a2, cx2, Animator._last_vec2 8 cachedAnimator.last_values) ∧
      Animator._last_vec2 8 a2.last_values =
        Animator._last_vec2 8 cachedAnimator.last_values) ∧
    (∃ a2 cx2, Animator.calc_vec3 cachedAnimator sampleCx 8 0 =
        some (a2, cx2, Animator._last_vec3 8 cachedAnimator.last_values) ∧
      Animator._last_vec3 8 a2.last_values =
        Animator._last_vec3 8 cachedAnimator.last_values) ∧
    (∃ a2 cx2, Animator.calc_vec4 cachedAnimator sampleCx 8 0 =
        some (a2, cx2, Animator._last_vec4 8 cachedAnimator.last_values) ∧
      Animator._last_vec4 8 a2.last_values =
        Animator._last_vec4 8 cachedAnimator.last_values) ∧
    (∃ a2 cx2, Animator.calc_color cachedAnimator sampleCx 8 0 =
        some (a2, cx2, Color.default) ∧
      a2.last_values = cachedAnimator.last_values) :=
  Animator.calc_fallback_behavior cachedAnimator sampleCx 8 0 (Or.inl (by decide))

theorem play_cut_chain_promotes_witness :
    ∃ a1 c1 a2 c2 a3 c3 r3 a4 c4 r4,
      Animator.play_anim idleAnimator sampleCx animA = some (a1, c1) ∧
      assocGet c1.playing_anim_areas idleAnimator.area =
        some ⟨none, animA.play.duration⟩ ∧
      Animator.play_anim a1 c1 animB = some (a2, c2) ∧
      assocGet c2.playing_anim_areas idleAnimator.area =
        some ⟨none, animA.play.duration + animB.play.duration⟩ ∧
      Animator.update_anim_track a2 c2 10 = (a3, c3, r3) ∧ r3.isSome ∧
      a3.current = some animA ∧
      assocGet c3.playing_anim_areas idleAnimator.area =
        some ⟨some 10, animA.play.duration + animB.play.duration⟩ ∧
      Animator.update_anim_track a3 c3 12 = (a4, c4, r4) ∧ r4.isSome ∧
      a4.current = some animB ∧ a4.next = none ∧
      assocGet c4.playing_anim_areas idleAnimator.area =
        some ⟨some (10 + animA.play.duration), animB.play.duration⟩ :=
  Animator.play_cut_chain_promotes idleAnimator sampleCx animA animB 10 12
    (Or.inl rfl) (by decide) rfl rfl rfl (by norm_num [animA])
    (by norm_num [animA])

end Makepad
